import Mathlib

/-!
# Vehicle telemetry server (`server/server.c`)

A shallow embedding of the TCP control-and-telemetry server: the session
registry, the line dispatcher `handle_line`, the command handler
`process_cmd`, the broadcaster, and the properties of the specification that
they satisfy or violate.

Conventions of the embedding

* A C string is the list of its bytes before the terminating NUL (`CStr`).
* `int` values are `Int`; no reachable computation leaves the 32-bit range.
* `vehicle.speed` is a `double`.  Every value the program can store in it is a
  multiple of 2.5 between 0 and 30 (theorem `speed_grid_of_reachable`), and
  binary64 represents and adds these exactly, so the field is a rational.
* Each mutex-protected section is one atomic step.  The sequential model
  `step` runs a whole `handle_line` call as one step; `process_cmd_interleaved`
  lets other threads run between the two critical sections of `process_cmd`.
* A `send` either returns or raises SIGPIPE, which ends the process
  (`send_result`).  `broadcast_loop` covers both; `broadcast_telemetry` and the
  event `Event.tick` of the transition system describe the passes in which
  every failing `send` returns.
-/

namespace Server

/-! ## Constants and types (lines 42-78) -/

/-- A C string: the bytes before the terminating NUL. -/
abbrev CStr := List Char

/-- The constant `MAXLINE` (`#define MAXLINE 2048`). -/
def MAXLINE : Nat := 2048

/-- The constant `TOKEN_LEN` (`#define TOKEN_LEN 33`). -/
def TOKEN_LEN : Nat := 33

/-- The enumeration `role_t` of line 46. -/
inductive role_t where
  | ROLE_NONE
  | ROLE_OBSERVER
  | ROLE_ADMIN
deriving DecidableEq, Repr

/-- The parts of `struct sockaddr_in` the server prints: the four bytes of
the IPv4 address and the port in host order. -/
structure sockaddr_in where
  ip0 : Nat
  ip1 : Nat
  ip2 : Nat
  ip3 : Nat
  sin_port : Nat
deriving DecidableEq, Repr

/-- The record `struct client` without the thread handle and the `next` link; the
registry is the list of these records in link order. -/
structure client_t where
  fd : Int
  addr : sockaddr_in
  role : role_t
  authenticated : Bool
  token : CStr
deriving DecidableEq, Repr

/-- The type `cred_t`: the administrator record read from `credentials.txt`. -/
structure cred_t where
  username : CStr
  salt : CStr
  hashhex : CStr
deriving DecidableEq, Repr

/-- The type `vehicle_t` without its mutex. -/
structure vehicle_t where
  speed : ℚ
  battery : Int
  direction_deg : Int
deriving DecidableEq, Repr

/-- The global variables `clients`, `admin_cred`, `cred_present`, `vehicle`. -/
structure Globals where
  clients : List client_t
  cred_present : Bool
  admin_cred : cred_t
  vehicle : vehicle_t

/-! ## libc helpers -/

/-- Models `snprintf(out, n, ...)`: at most `n - 1` bytes of the formatted text. -/
def snprintf (n : Nat) (text : CStr) : CStr := text.take (n - 1)

/-- Models `strncpy(dst, src, n)` into a zeroed or NUL-terminated buffer of `n + 1`
bytes, read back as a string. -/
def strncpy (src : CStr) (n : Nat) : CStr := src.take n

/-- Models `strncat(dst, src, n)`: appends at most `n` bytes of `src`. -/
def strncat (dst src : CStr) (n : Nat) : CStr := dst ++ src.take n

/-- Models `strtok(s, delim)` on a fresh string: the first token and the text that a
following `strtok(NULL, ...)` continues from; `none` is the NULL result. -/
def strtok (s delim : CStr) : Option (CStr × CStr) :=
  let s1 := s.dropWhile (fun ch => decide (ch ∈ delim))
  if s1 = [] then none
  else
    some (s1.takeWhile (fun ch => !decide (ch ∈ delim)),
          (s1.dropWhile (fun ch => !decide (ch ∈ delim))).drop 1)

/-- The in-place upper-casing of line 331. -/
def upper_ascii (ch : Char) : Char :=
  if 'a' ≤ ch ∧ ch ≤ 'z' then Char.ofNat (ch.toNat - 32) else ch

/-- The libc `tolower` in the C locale. -/
def tolower (ch : Char) : Char :=
  if 'A' ≤ ch ∧ ch ≤ 'Z' then Char.ofNat (ch.toNat + 32) else ch

/-- The test `strcasecmp(a, b) == 0`. -/
def strcasecmp_eq (a b : CStr) : Bool := decide (a.map tolower = b.map tolower)

/-- The conversion `%d`. -/
def fmt_d (n : Int) : CStr := (toString n).toList

/-- One lowercase hexadecimal digit. -/
def hex_digit (n : Nat) : Char := "0123456789abcdef".toList.getD n '0'

/-- The conversion `%02x` of one byte. -/
def fmt_02x (b : Nat) : CStr := [hex_digit (b / 16 % 16), hex_digit (b % 16)]

/-- Nearest integer, ties to even. -/
def round_half_even (x : ℚ) : Int :=
  let f := Int.floor x
  let d := x - f
  if d < 1 / 2 then f
  else if 1 / 2 < d then f + 1
  else if f % 2 = 0 then f else f + 1

/-- The conversion `%.2f`. -/
def fmt_2f (x : ℚ) : CStr :=
  let h := (round_half_even (|x| * 100)).toNat
  (if x < 0 then ['-'] else []) ++ (Nat.repr (h / 100)).toList ++ ['.'] ++
    [hex_digit (h / 10 % 10), hex_digit (h % 10)]

/-! ## Tokens (lines 145-159) -/

/-- Function `gen_token`: the 16 bytes read from `/dev/urandom` (or from `rand()`),
`r`, printed as 32 hexadecimal digits. -/
def gen_token (r : List Nat) : CStr :=
  (List.range 16).flatMap (fun i => fmt_02x (r.getD i 0 % 256))

/-! ## Registry (lines 161-241) -/

/-- Function `add_client`: the new record becomes the head of the list. -/
def add_client (clients : List client_t) (c : client_t) : List client_t := c :: clients

/-- Function `remove_client` applied to the record at position `i`. -/
def remove_client (clients : List client_t) (i : Nat) : List client_t := clients.eraseIdx i

/-- The text `send_line` puts on the wire (lines 184-190): the formatted
text cut to `MAXLINE - 3` bytes, then a line feed. -/
def send_line (text : CStr) : CStr := snprintf (MAXLINE - 2) text ++ ['\n']

/-- Dotted-decimal text of `inet_ntop(AF_INET, ...)`. -/
def inet_ntop (a : sockaddr_in) : CStr :=
  (Nat.repr a.ip0).toList ++ ['.'] ++ (Nat.repr a.ip1).toList ++ ['.'] ++
    (Nat.repr a.ip2).toList ++ ['.'] ++ (Nat.repr a.ip3).toList

/-- Function `client_idstr`: the text `ip:port`. -/
def client_idstr (c : client_t) (n : Nat) : CStr :=
  snprintf n (inet_ntop c.addr ++ [':'] ++ (Nat.repr c.addr.sin_port).toList)

/-- Function `find_client_by_token`: the first authenticated session holding `token`. -/
def find_client_by_token (clients : List client_t) (token : CStr) : Option client_t :=
  clients.find? (fun it => it.authenticated && decide (it.token = token))

/-- The role name chosen at line 232. -/
def role_name (r : role_t) : CStr :=
  if r = role_t.ROLE_ADMIN then "ADMIN".toList
  else if r = role_t.ROLE_OBSERVER then "OBSERVER".toList
  else "NONE".toList

/-- The `line` buffer of lines 233-234 for one session. -/
def users_line (it : client_t) : CStr :=
  snprintf 128 (client_idstr it 64 ++ [':'] ++
    (if it.authenticated then "AUTH".toList else "NOAUTH".toList) ++ [':'] ++
    role_name it.role ++ ['\n'])

/-- The loop of lines 229-238 from the session `it` onwards, with the
current `tmp` buffer and `count`. -/
def build_users_loop : List client_t → CStr → Int → CStr × Int
  | [], tmp, count => (tmp, count)
  | it :: rest, tmp, count =>
      build_users_loop rest (strncat tmp (users_line it) (4096 - tmp.length - 1)) (count + 1)

/-- Function `build_users_list(out, n)`. -/
def build_users_list (clients : List client_t) (n : Nat) : CStr :=
  let r := build_users_loop clients [] 0
  snprintf n ("USERS ".toList ++ fmt_d r.2 ++ ['\n'] ++ r.1)

/-! ## Vehicle helpers and the broadcaster (lines 243-309) -/

/-- Function `dir_of_deg`. -/
def dir_of_deg (deg : Int) : CStr :=
  let d1 := Int.tmod deg 360
  let d2 := if d1 < 0 then d1 + 360 else d1
  if d2 < 45 ∨ d2 ≥ 315 then "N".toList
  else if d2 < 135 then "E".toList
  else if d2 < 225 then "S".toList
  else "W".toList

/-- The telemetry line of line 262 for the vehicle `v` and timestamp `ts`. -/
def telemetry_msg (v : vehicle_t) (ts : CStr) : CStr :=
  snprintf MAXLINE ("TELEMETRY v=".toList ++ fmt_2f v.speed ++ " battery=".toList ++
    fmt_d v.battery ++ " dir=".toList ++ dir_of_deg v.direction_deg ++
    " timestamp=".toList ++ ts)

/-- How the writes to one session (lines 270 and 283) can end.  The server
sends with flags 0 and never changes the action of SIGPIPE (line 566 installs
a handler for SIGINT only), so a send on a connection that the peer has reset
does not return: the signal ends the process. -/
inductive send_result where
  /-- The send of line 270 returns `n > 0` and the send of line 283 returns. -/
  | sent
  /-- The send of line 270 returns `n <= 0`, for example with ECONNRESET. -/
  | failed
  /-- The send of line 270 raises SIGPIPE and the process ends. -/
  | sigpipe
  /-- The send of line 270 returns `n > 0`, then the send of the line feed
  (line 283) raises SIGPIPE and the process ends. -/
  | sigpipe_newline
deriving DecidableEq, Repr

/-- What a broadcast pass leaves: the registry, the sessions to which the
send of line 270 wrote the telemetry line, in order, and whether the process
was ended by SIGPIPE during the pass. -/
structure pass_result where
  clients : List client_t
  written : List client_t
  killed : Bool
deriving DecidableEq, Repr

/-- The loop of lines 267-290.  `kept` is the part of the list already
walked and still linked (it ends in `prev`), the second list starts at `it`;
`send it` is how the writes to that session end.  After a SIGPIPE nothing
more is done: the registry is as the walk found it. -/
def broadcast_loop (send : client_t → send_result) :
    List client_t → List client_t → pass_result
  | kept, [] => ⟨kept, [], false⟩
  | kept, it :: rest =>
      if it.authenticated then
        match send it with
        | send_result.sigpipe => ⟨kept ++ it :: rest, [], true⟩
        | send_result.sigpipe_newline => ⟨kept ++ it :: rest, [it], true⟩
        | send_result.failed => broadcast_loop send kept rest
        | send_result.sent =>
            let r := broadcast_loop send (kept ++ [it]) rest
            ⟨r.clients, it :: r.written, r.killed⟩
      else
        broadcast_loop send (kept ++ [it]) rest

/-- The sends of a pass in which every failing `send` returns `n <= 0`:
`send_fails it` tells whether the one to that session fails. -/
def returning (send_fails : client_t → Bool) : client_t → send_result :=
  fun it => if send_fails it then send_result.failed else send_result.sent

/-- Function `broadcast_telemetry` with the outcome of every `send` given:
the line built at line 262 and the result of the walk. -/
def broadcast_telemetry_sends (g : Globals) (ts : CStr) (send : client_t → send_result) :
    CStr × pass_result :=
  (telemetry_msg g.vehicle ts, broadcast_loop send [] g.clients)

/-- Function `broadcast_telemetry` for a pass in which every failing `send`
returns `n <= 0` (`send_fails` tells which do): the registry after the pass
and, for every session written to, its record and the line sent (a separate
one-byte send of the line feed follows each). -/
def broadcast_telemetry (g : Globals) (ts : CStr) (send_fails : client_t → Bool) :
    List client_t × List (client_t × CStr) :=
  let msg := telemetry_msg g.vehicle ts
  let r := broadcast_loop (returning send_fails) [] g.clients
  (r.clients, r.written.map (fun it => (it, msg)))

/-- The battery update of lines 300-304. -/
def broadcaster_update (v : vehicle_t) : vehicle_t :=
  let b1 :=
    if v.speed > 0 then v.battery - 1
    else if v.battery > 0 ∧ v.speed = 0 then v.battery - 0
    else v.battery
  { v with battery := if b1 < 0 then 0 else b1 }

/-- One iteration of `broadcaster_thread` after the sleep, for a pass in
which every failing `send` returns. -/
def broadcaster_tick (g : Globals) (ts : CStr) (send_fails : client_t → Bool) :
    Globals × List (client_t × CStr) :=
  let g1 := { g with vehicle := broadcaster_update g.vehicle }
  let r := broadcast_telemetry g1 ts send_fails
  ({ g1 with clients := r.1 }, r.2)

/-! ## `process_cmd` (lines 311-385) -/

/-- Lines 322-331: at most 63 bytes of `rest`, spaces replaced by
underscores, ASCII letters upper-cased. -/
def normalize_action (rest : CStr) : CStr :=
  ((rest.take 63).map (fun ch => if ch = ' ' then '_' else ch)).map upper_ascii

/-- Lines 314-331: the normalised action of a command line, or the text of
the `ERR` line sent when the line has no `CMD` keyword or no action. -/
def parse_action (cmdline : CStr) : Except CStr CStr :=
  let copy := strncpy cmdline (MAXLINE - 1)
  match strtok copy " \t\r\n".toList with
  | none => Except.error "ERR invalid".toList
  | some (tok, after) =>
      if tok ≠ "CMD".toList then Except.error "ERR expected CMD".toList
      else
        match strtok after "\r\n".toList with
        | none => Except.error "ERR missing action".toList
        | some (rest, _) => Except.ok (normalize_action rest)

/-- Lines 351-384: the action applied to the vehicle as it stands when its
lock is taken, and the line sent. -/
def apply_action (action : CStr) (v : vehicle_t) : vehicle_t × CStr :=
  if action = "SPEED_UP".toList then
    if v.speed ≥ 30 then
      (v, send_line "CMD-ERR action=SPEED_UP reason=speed_limit".toList)
    else
      ({ v with speed := v.speed + 5 / 2 }, send_line "CMD-ACK action=SPEED_UP status=OK".toList)
  else if action = "SLOW_DOWN".toList then
    ({ v with speed := if v.speed ≤ 0 then 0 else v.speed - 5 / 2 },
      send_line "CMD-ACK action=SLOW_DOWN status=OK".toList)
  else if action = "TURN_LEFT".toList then
    ({ v with direction_deg := Int.tmod (v.direction_deg + 270) 360 },
      send_line "CMD-ACK action=TURN_LEFT status=OK".toList)
  else if action = "TURN_RIGHT".toList then
    ({ v with direction_deg := Int.tmod (v.direction_deg + 90) 360 },
      send_line "CMD-ACK action=TURN_RIGHT status=OK".toList)
  else
    (v, send_line ("CMD-ERR action=".toList ++ action ++ " reason=unknown_command".toList))

/-- Lines 338-384: the authorization and battery checks on the value
`battery` read at line 334, then the action on the vehicle `v`. -/
def process_cmd_checked (c : client_t) (battery : Int) (action : CStr) (v : vehicle_t) :
    vehicle_t × CStr :=
  if !c.authenticated || c.role != role_t.ROLE_ADMIN then
    (v, send_line ("CMD-ERR action=".toList ++ action ++ " reason=not_authorized".toList))
  else if battery < 10 then
    (v, send_line ("CMD-ERR action=".toList ++ action ++ " reason=battery_low".toList))
  else
    apply_action action v

/-- Function `process_cmd(c, cmdline)` run without interruption on the vehicle `v`:
the vehicle afterwards and the line sent to `c`. -/
def process_cmd (c : client_t) (v : vehicle_t) (cmdline : CStr) : vehicle_t × CStr :=
  match parse_action cmdline with
  | Except.error e => (v, send_line e)
  | Except.ok action => process_cmd_checked c v.battery action v

/-! ## `handle_line` (lines 387-482) -/

/-- What one `handle_line` call leaves behind: the session record, the
vehicle, the text sent to the session, and whether `shutdown` was called. -/
structure handle_result where
  c : client_t
  vehicle : vehicle_t
  reply : CStr
  shut : Bool

/-- Function `handle_line(c, line)`.  `sha256_hex_of` is the OpenSSL digest helper of
lines 133-143, `g` the globals (its registry holds `c` itself), and `r` the
random bytes `gen_token` would read. -/
def handle_line (sha256_hex_of : CStr → CStr → CStr) (g : Globals) (c : client_t)
    (line : CStr) (r : List Nat) : handle_result :=
  let copy := strncpy line (MAXLINE - 1)
  match strtok copy " \t\r\n".toList with
  | none => ⟨c, g.vehicle, send_line "ERR invalid".toList, false⟩
  | some (cmd, after) =>
    if cmd = "AUTH".toList then
      match strtok after "\r\n".toList with
      | none => ⟨c, g.vehicle, send_line "AUTH-ERR reason=missing_credentials".toList, false⟩
      | some (rest, _) =>
        if rest.take 6 = "token=".toList then
          let token := rest.drop 6
          let valid := g.clients.any (fun it => decide (it.token = token))
          if valid then
            let c1 := { c with authenticated := true,
                               token := strncpy token (TOKEN_LEN - 1),
                               role := role_t.ROLE_ADMIN }
            ⟨c1, g.vehicle, send_line ("AUTH-OK token=".toList ++ c1.token), false⟩
          else
            ⟨c, g.vehicle, send_line "AUTH-ERR reason=invalid_token".toList, false⟩
        else
          match strtok rest " ".toList with
          | none => ⟨c, g.vehicle, send_line "AUTH-ERR reason=bad_format".toList, false⟩
          | some (user, after_user) =>
            match strtok after_user " ".toList with
            | none => ⟨c, g.vehicle, send_line "AUTH-ERR reason=bad_format".toList, false⟩
            | some (pass, _) =>
              if !g.cred_present then
                ⟨c, g.vehicle, send_line "AUTH-ERR reason=no_credentials_on_server".toList, false⟩
              else if user ≠ g.admin_cred.username then
                ⟨c, g.vehicle, send_line "AUTH-ERR reason=invalid_user".toList, false⟩
              else if sha256_hex_of g.admin_cred.salt pass = g.admin_cred.hashhex then
                let c1 := { c with authenticated := true,
                                   role := role_t.ROLE_ADMIN,
                                   token := gen_token r }
                ⟨c1, g.vehicle, send_line ("AUTH-OK token=".toList ++ c1.token), false⟩
              else
                ⟨c, g.vehicle, send_line "AUTH-ERR reason=invalid_password".toList, false⟩
    else if cmd = "SUBSCRIBE".toList then
      match strtok after " \r\n".toList with
      | none => ⟨c, g.vehicle, send_line "ERR missing role".toList, false⟩
      | some (role, _) =>
        if strcasecmp_eq role "ADMIN".toList then
          ⟨{ c with role := role_t.ROLE_ADMIN }, g.vehicle,
            send_line "SUBSCRIBE-OK role=ADMIN".toList, false⟩
        else
          ⟨{ c with role := role_t.ROLE_OBSERVER }, g.vehicle,
            send_line "SUBSCRIBE-OK role=OBSERVER".toList, false⟩
    else if cmd = "LIST_USERS".toList then
      if !c.authenticated || c.role != role_t.ROLE_ADMIN then
        ⟨c, g.vehicle, send_line "ERR not_authorized".toList, false⟩
      else
        ⟨c, g.vehicle, send_line (build_users_list g.clients 8192), false⟩
    else if cmd = "CMD".toList then
      let p := process_cmd c g.vehicle line
      ⟨c, p.1, p.2, false⟩
    else if cmd = "QUIT".toList then
      ⟨c, g.vehicle, send_line "BYE".toList, true⟩
    else
      ⟨c, g.vehicle, send_line "ERR unknown_command".toList, false⟩

/-! ## `client_thread` (lines 484-514) -/

/-- Models `strchr(start, '\n')`: the text before the first line feed and the
text after it; `none` when `start` has no line feed. -/
def strchr_nl (start : CStr) : Option (CStr × CStr) :=
  if '\n' ∈ start then
    some (start.takeWhile (fun ch => ch != '\n'), (start.dropWhile (fun ch => ch != '\n')).drop 1)
  else none

/-- Lines 500-501: a last byte that is a carriage return is cut off. -/
def trim_cr (s : CStr) : CStr :=
  if s.getLast? = some '\r' then s.dropLast else s

/-- The loop of lines 497-506 from `start`, with at most `fuel` passes: the
lines handed to `handle_line`, in order. -/
def split_loop : Nat → CStr → List CStr
  | 0, _ => []
  | fuel + 1, start =>
      match strchr_nl start with
      | some (seg, after) =>
          (if trim_cr seg ≠ [] then [trim_cr seg] else []) ++ split_loop fuel after
      | none => if start ≠ [] then [start] else []

/-- One pass of the receive loop (lines 491-506) on the bytes `chunk` that
`recv` returned: `buf[n] = 0` makes the buffer a C string, which ends at the
first NUL, and every pass of the inner loop consumes at least one byte. -/
def client_thread_lines (chunk : CStr) : List CStr :=
  let buf := chunk.takeWhile (fun ch => ch != '\x00')
  split_loop (buf.length + 1) buf

/-! ## The server as a transition system -/

/-- The session record built by `acceptor_thread` (lines 528-533). -/
def new_client (connfd : Int) (cliaddr : sockaddr_in) : client_t :=
  { fd := connfd, addr := cliaddr, role := role_t.ROLE_NONE, authenticated := false, token := [] }

/-- The globals after `main` has initialised the vehicle (lines 576-578),
before any connection. -/
def init_globals (cred_present : Bool) (admin_cred : cred_t) : Globals :=
  { clients := [], cred_present := cred_present, admin_cred := admin_cred,
    vehicle := { speed := 0, battery := 100, direction_deg := 0 } }

/-- What can happen to the running server. -/
inductive Event where
  /-- A connection is accepted (lines 522-534). -/
  | accept (connfd : Int) (cliaddr : sockaddr_in)
  /-- The worker of the session at position `i` of the registry handles one
  line; `r` are the random bytes available to `gen_token`. -/
  | line (i : Nat) (text : CStr) (r : List Nat)
  /-- The broadcaster wakes up (lines 300-306); every failing `send` of the
  pass returns, and `send_fails` tells which do. -/
  | tick (ts : CStr) (send_fails : client_t → Bool)
  /-- The worker of the session at position `i` leaves its loop (lines 508-512). -/
  | disconnect (i : Nat)

/-- One event applied to the globals; the second component is what was
written, as (session record, text) pairs. -/
def step (sha256_hex_of : CStr → CStr → CStr) (g : Globals) :
    Event → Globals × List (client_t × CStr)
  | Event.accept connfd cliaddr =>
      ({ g with clients := add_client g.clients (new_client connfd cliaddr) }, [])
  | Event.line i text r =>
      match g.clients.get? i with
      | none => (g, [])
      | some c =>
          let h := handle_line sha256_hex_of g c text r
          ({ g with clients := g.clients.set i h.c, vehicle := h.vehicle }, [(h.c, h.reply)])
  | Event.tick ts send_fails => broadcaster_tick g ts send_fails
  | Event.disconnect i => ({ g with clients := remove_client g.clients i }, [])

/-- The globals after a sequence of events. -/
def run (sha256_hex_of : CStr → CStr → CStr) (g : Globals) (evs : List Event) : Globals :=
  evs.foldl (fun acc ev => (step sha256_hex_of acc ev).1) g

/-- The globals after a sequence of events, with everything written on the
way. -/
def run_out (sha256_hex_of : CStr → CStr → CStr) (g : Globals) :
    List Event → Globals × List (client_t × CStr)
  | [] => (g, [])
  | ev :: evs =>
      let s := step sha256_hex_of g ev
      let t := run_out sha256_hex_of s.1 evs
      (t.1, s.2 ++ t.2)

/-! ## A command handler interleaved with other threads -/

/-- What another thread can do to the vehicle in one critical section. -/
inductive Mutator where
  /-- The broadcaster runs lines 300-304. -/
  | tick
  /-- The worker of session `c` carries out `action`, having read the
  battery value `battery` in its own earlier section (lines 338-384). -/
  | cmd (c : client_t) (battery : Int) (action : CStr)

/-- The vehicle after one critical section of another thread. -/
def mutate (v : vehicle_t) : Mutator → vehicle_t
  | Mutator.tick => broadcaster_update v
  | Mutator.cmd c battery action => (process_cmd_checked c battery action v).1

/-- Function `process_cmd(c, cmdline)` when the critical sections `others`
of other threads run after the handler has released the lock at line 336 and
before it takes it again for the action (lines 353, 364, 371, 377): the
checks use the battery read at line 334, the action works on the vehicle as
the others left it. -/
def process_cmd_interleaved (c : client_t) (v : vehicle_t) (cmdline : CStr)
    (others : List Mutator) : vehicle_t × CStr :=
  match parse_action cmdline with
  | Except.error e => (others.foldl mutate v, send_line e)
  | Except.ok action => process_cmd_checked c v.battery action (others.foldl mutate v)

/-! ## Runs used in the statements -/

/-- A session sends `CMD SPEED UP` once per entry of `bs`; the entry is the
battery level the other threads have left in the vehicle when that call
starts.  One result per call: the vehicle before, the vehicle after, and the
line sent. -/
def speed_up_calls (c : client_t) : vehicle_t → List Int → List (vehicle_t × vehicle_t × CStr)
  | _, [] => []
  | v, b :: bs =>
      let before := { v with battery := b }
      let p := process_cmd c before "CMD SPEED UP".toList
      (before, p.1, p.2) :: speed_up_calls c p.1 bs

/-- The successive `handle_line` calls of one session worker.  Each entry
gives the globals as the other threads have left them when the call starts,
the line, and the random bytes.  Returns the session record at the end and
the lines sent. -/
def session_run (sha256_hex_of : CStr → CStr → CStr) (c : client_t) :
    List (Globals × CStr × List Nat) → client_t × List CStr
  | [] => (c, [])
  | (g, line, r) :: calls =>
      let h := handle_line sha256_hex_of g c line r
      let t := session_run sha256_hex_of h.c calls
      (t.1, h.reply :: t.2)

/-- A registry of eighty sessions: one authenticated administrator at
10.0.0.1:40000 and seventy-nine freshly accepted connections from 10.0.0.2,
ports 50000 to 50078. -/
def crowded_registry : List client_t :=
  { fd := 4, addr := ⟨10, 0, 0, 1, 40000⟩, role := role_t.ROLE_ADMIN, authenticated := true,
    token := [] } ::
  (List.range 79).map (fun i => new_client (Int.ofNat (5 + i)) ⟨10, 0, 0, 2, 50000 + i⟩)

/-- The bounds of the vehicle state. -/
def vehicle_in_bounds (v : vehicle_t) : Prop :=
  0 ≤ v.speed ∧ v.speed ≤ 30 ∧ 0 ≤ v.battery ∧ v.battery ≤ 100 ∧
    0 ≤ v.direction_deg ∧ v.direction_deg < 360

/-- The invariant behind the bounds: the speed is one of the thirteen
multiples of 2.5 from 0 to 30, and battery and heading are in range. -/
def vehicle_inv (v : vehicle_t) : Prop :=
  (∃ k : Nat, k ≤ 12 ∧ v.speed = (k : ℚ) * (5 / 2)) ∧ 0 ≤ v.battery ∧ v.battery ≤ 100 ∧
    0 ≤ v.direction_deg ∧ v.direction_deg < 360

/-- A token as `gen_token` prints it: 32 lowercase hexadecimal digits. -/
def is_hex32 (t : CStr) : Prop :=
  t.length = 32 ∧ ∀ ch ∈ t, ch ∈ "0123456789abcdef".toList

/-- The credential record of the scenario: user `admin`, salt `s`, and the
digest of salt and password `pw` under the digest function in use. -/
def scenario_cred (sha256_hex_of : CStr → CStr → CStr) : cred_t :=
  ⟨"admin".toList, "s".toList, sha256_hex_of "s".toList "pw".toList⟩

/-- The administrator of the scenario after login: connection 4 from
10.0.0.1:40000, holding the token printed from the random bytes `r`. -/
def scenario_admin (r : List Nat) : client_t :=
  ⟨4, ⟨10, 0, 0, 1, 40000⟩, role_t.ROLE_ADMIN, true, gen_token r⟩

/-- The globals of the scenario once the administrator is logged in, with
the vehicle `v`. -/
def scenario_globals (sha256_hex_of : CStr → CStr → CStr) (r : List Nat) (v : vehicle_t) :
    Globals :=
  ⟨[scenario_admin r], true, scenario_cred sha256_hex_of, v⟩

/-- The three session states the specification documents: Connected,
RoleSelected, Authenticated. -/
def documented_state (c : client_t) : Prop :=
  (c.role = role_t.ROLE_NONE ∧ c.authenticated = false) ∨
  ((c.role = role_t.ROLE_OBSERVER ∨ c.role = role_t.ROLE_ADMIN) ∧ c.authenticated = false) ∨
  (c.authenticated = true ∧ c.role = role_t.ROLE_ADMIN)

/-- Following the specification of line splitting: the segments of a chunk
that end in a line feed, without that line feed, and the residual text
after the last line feed. -/
def spec_segments : CStr → List CStr × CStr
  | [] => ([], [])
  | ch :: rest =>
      let r := spec_segments rest
      if ch = '\n' then ([] :: r.1, r.2)
      else
        match r.1 with
        | [] => ([], ch :: r.2)
        | s :: ss => ((ch :: s) :: ss, r.2)

/-- The carriage return that `trim_cr` removes from a segment, if any. -/
def removed_cr (s : CStr) : CStr :=
  if s.getLast? = some '\r' then ['\r'] else []

/-- Following the specification of line splitting: every segment with its
optional trailing carriage return removed, those left empty dropped, then
the residual if it is not empty. -/
def spec_dispatched (chunk : CStr) : List CStr :=
  ((spec_segments chunk).1.map trim_cr).filter (fun s => decide (s ≠ [])) ++
    (if (spec_segments chunk).2 ≠ [] then [(spec_segments chunk).2] else [])

/-- Following the specification of action names: every space replaced by an
underscore and ASCII letters upper-cased, on the whole text. -/
def spec_normalize (text : CStr) : CStr :=
  (text.map (fun ch => if ch = ' ' then '_' else ch)).map upper_ascii

instance (v : vehicle_t) : Decidable (vehicle_in_bounds v) := by
  unfold vehicle_in_bounds
  infer_instance

instance (t : CStr) : Decidable (is_hex32 t) := by
  unfold is_hex32
  infer_instance

/-! ## Auxiliary facts: strings and replies -/

theorem send_line_short (text : CStr) (h : text.length ≤ 2045) :
    send_line text = text ++ ['\n'] := by
  unfold send_line snprintf MAXLINE
  rw [List.take_of_length_le (by omega)]

theorem normalize_action_length (rest : CStr) : (normalize_action rest).length ≤ 63 := by
  simp [normalize_action, List.length_take]

theorem parse_action_ok_length (cmdline action : CStr)
    (ha : parse_action cmdline = Except.ok action) : action.length ≤ 63 := by
  unfold parse_action at ha
  dsimp only at ha
  split at ha
  · cases ha
  · split at ha
    · cases ha
    · split at ha
      · cases ha
      · cases ha
        exact normalize_action_length _

theorem send_cmd_err (action reason : CStr) (h1 : action.length ≤ 63)
    (h2 : reason.length ≤ 100) :
    send_line ("CMD-ERR action=".toList ++ action ++ reason) =
      "CMD-ERR action=".toList ++ action ++ reason ++ ['\n'] := by
  apply send_line_short
  simp only [List.length_append]
  have : "CMD-ERR action=".toList.length = 15 := by decide
  omega

theorem send_auth_ok (tok : CStr) (h : tok.length ≤ 32) :
    send_line ("AUTH-OK token=".toList ++ tok) = "AUTH-OK token=".toList ++ tok ++ ['\n'] := by
  apply send_line_short
  simp only [List.length_append]
  have : "AUTH-OK token=".toList.length = 14 := by decide
  omega

theorem strncpy_token_length (token : CStr) : (strncpy token (TOKEN_LEN - 1)).length ≤ 32 := by
  simp [strncpy, TOKEN_LEN, List.length_take]

theorem gen_token_length (r : List Nat) : (gen_token r).length = 32 := by
  have h : List.range 16 = [0, 1, 2, 3, 4, 5, 6, 7, 8, 9, 10, 11, 12, 13, 14, 15] := by decide
  simp [gen_token, h, fmt_02x]

theorem head_send_line (text : CStr) (ch : Char) (h : text.head? = some ch) :
    (send_line text).head? = some ch := by
  cases text with
  | nil => simp at h
  | cons x xs =>
      simp only [List.head?_cons, Option.some.injEq] at h
      subst h
      simp [send_line, snprintf, MAXLINE]

theorem not_auth_ok_of_head (reply : CStr) (ch : Char) (h : reply.head? = some ch)
    (hne : ch ≠ 'A') : ¬ "AUTH-OK".toList <+: reply := by
  intro hp
  obtain ⟨s, hs⟩ := hp
  rw [← hs] at h
  simp at h
  exact hne h.symm

theorem takeWhile_no_crlf (t : CStr) (h : ∀ ch ∈ t, ch ≠ '\r' ∧ ch ≠ '\n') :
    t.takeWhile (fun ch => !decide (ch ∈ "\r\n".toList)) = t := by
  induction t with
  | nil => rfl
  | cons x xs ih =>
      have hx := h x (List.mem_cons_self _ _)
      have hxs := ih (fun ch hch => h ch (List.mem_cons_of_mem _ hch))
      have hd : (!decide (x ∈ "\r\n".toList)) = true := by
        simp [hx.1, hx.2]
      rw [List.takeWhile_cons, hd]
      simp only [if_true]
      rw [hxs]

theorem dropWhile_no_crlf (t : CStr) (h : ∀ ch ∈ t, ch ≠ '\r' ∧ ch ≠ '\n') :
    t.dropWhile (fun ch => !decide (ch ∈ "\r\n".toList)) = [] := by
  induction t with
  | nil => rfl
  | cons x xs ih =>
      have hx := h x (List.mem_cons_self _ _)
      have hxs := ih (fun ch hch => h ch (List.mem_cons_of_mem _ hch))
      have hd : (!decide (x ∈ "\r\n".toList)) = true := by
        simp [hx.1, hx.2]
      rw [List.dropWhile_cons, hd]
      simp only [if_true]
      exact hxs

/-- The second `strtok` of an `AUTH token=t` line returns `token=t` whole. -/
theorem strtok_token_arg (t : CStr) (h : ∀ ch ∈ t, ch ≠ '\r' ∧ ch ≠ '\n') :
    strtok ("token=".toList ++ t) "\r\n".toList = some ("token=".toList ++ t, []) := by
  have h6 : ∀ ch ∈ "token=".toList ++ t, ch ≠ '\r' ∧ ch ≠ '\n' := by
    intro ch hch
    rcases List.mem_append.mp hch with h1 | h1
    · have : ch ∈ ['t', 'o', 'k', 'e', 'n', '='] := h1
      simp only [List.mem_cons, List.mem_singleton, List.not_mem_nil, or_false] at this
      rcases this with rfl | rfl | rfl | rfl | rfl | rfl <;> decide
    · exact h ch h1
  unfold strtok
  have hdrop : ("token=".toList ++ t).dropWhile (fun ch => decide (ch ∈ "\r\n".toList)) =
      "token=".toList ++ t := by
    show ('t' :: ("oken=".toList ++ t)).dropWhile _ = _
    rw [List.dropWhile_cons]
    rfl
  simp only [hdrop]
  rw [if_neg (by show ('t' :: ("oken=".toList ++ t)) ≠ []; exact List.cons_ne_nil _ _)]
  rw [takeWhile_no_crlf _ h6, dropWhile_no_crlf _ h6]
  rfl

/-- The first `strtok` of an `AUTH token=t` line returns `AUTH` and leaves
`token=t`. -/
theorem strtok_auth_token (t : CStr) :
    strtok ("AUTH token=".toList ++ t) " \t\r\n".toList =
      some ("AUTH".toList, "token=".toList ++ t) := by
  rfl

theorem no_crlf_of_hex32 (t : CStr) (ht : is_hex32 t) : ∀ ch ∈ t, ch ≠ '\r' ∧ ch ≠ '\n' := by
  intro ch hch
  have hmem := ht.2 ch hch
  constructor
  · intro h
    rw [h] at hmem
    exact absurd hmem (by decide)
  · intro h
    rw [h] at hmem
    exact absurd hmem (by decide)

theorem hex_digit_mem (n : Nat) (h : n < 16) : hex_digit n ∈ "0123456789abcdef".toList := by
  revert n
  decide

/-- Every token `gen_token` prints is 32 lowercase hexadecimal digits. -/
theorem gen_token_hex32 (r : List Nat) : is_hex32 (gen_token r) := by
  refine ⟨gen_token_length r, ?_⟩
  intro ch hch
  unfold gen_token at hch
  rw [List.mem_flatMap] at hch
  obtain ⟨i, _, hi⟩ := hch
  unfold fmt_02x at hi
  simp only [List.mem_cons, List.mem_singleton, List.not_mem_nil, or_false] at hi
  rcases hi with rfl | rfl
  · exact hex_digit_mem _ (Nat.mod_lt _ (by decide))
  · exact hex_digit_mem _ (by omega)

/-! ## Auxiliary facts: `process_cmd` -/

/-- Which lines carry an action: after `CMD` and one blank, any text that
does not begin with a line break.  The action is that text up to its first
line break, normalised. -/
theorem parse_action_cmd (x : Char) (xs : CStr) (hx : x ≠ '\r' ∧ x ≠ '\n')
    (hlen : xs.length ≤ 2042) :
    parse_action ("CMD ".toList ++ x :: xs) =
      Except.ok (normalize_action
        ((x :: xs).takeWhile (fun ch => !decide (ch ∈ "\r\n".toList)))) := by
  have hcopy : strncpy ("CMD ".toList ++ x :: xs) (MAXLINE - 1) = "CMD ".toList ++ x :: xs := by
    unfold strncpy MAXLINE
    apply List.take_of_length_le
    simp only [List.length_append, List.length_cons]
    have : "CMD ".toList.length = 4 := by decide
    omega
  have h1 : strtok ("CMD ".toList ++ x :: xs) " \t\r\n".toList = some ("CMD".toList, x :: xs) := by
    rfl
  have hd : decide (x ∈ "\r\n".toList) = false := by
    simp [hx.1, hx.2]
  have h2 : strtok (x :: xs) "\r\n".toList =
      some ((x :: xs).takeWhile (fun ch => !decide (ch ∈ "\r\n".toList)),
        ((x :: xs).dropWhile (fun ch => !decide (ch ∈ "\r\n".toList))).drop 1) := by
    unfold strtok
    have hdrop : (x :: xs).dropWhile (fun ch => decide (ch ∈ "\r\n".toList)) = x :: xs := by
      rw [List.dropWhile_cons, hd]
      rfl
    simp only [hdrop]
    rw [if_neg (List.cons_ne_nil _ _)]
  unfold parse_action
  simp only [hcopy, h1, h2]
  rw [if_neg (by simp)]

theorem process_cmd_of_action (c : client_t) (v : vehicle_t) (cmdline action : CStr)
    (ha : parse_action cmdline = Except.ok action) :
    process_cmd c v cmdline = process_cmd_checked c v.battery action v := by
  unfold process_cmd
  rw [ha]

/-- An authenticated administrator with enough battery reaches the action
itself. -/
theorem process_cmd_admin (c : client_t) (v : vehicle_t) (cmdline action : CStr)
    (hauth : c.authenticated = true) (hrole : c.role = role_t.ROLE_ADMIN)
    (ha : parse_action cmdline = Except.ok action) (hb : 10 ≤ v.battery) :
    process_cmd c v cmdline = apply_action action v := by
  unfold process_cmd
  rw [ha]
  have hnb : ¬ v.battery < 10 := by omega
  simp [process_cmd_checked, hauth, hrole, hnb]

theorem speed_up_admin (c : client_t) (v : vehicle_t)
    (hauth : c.authenticated = true) (hrole : c.role = role_t.ROLE_ADMIN)
    (hb : 10 ≤ v.battery) :
    process_cmd c v "CMD SPEED UP".toList =
      if 30 ≤ v.speed then
        (v, "CMD-ERR action=SPEED_UP reason=speed_limit\n".toList)
      else
        ({ v with speed := v.speed + 5 / 2 }, "CMD-ACK action=SPEED_UP status=OK\n".toList) := by
  rw [process_cmd_admin c v "CMD SPEED UP".toList "SPEED_UP".toList hauth hrole rfl hb]
  unfold apply_action
  rw [if_pos rfl]
  have h1 : send_line "CMD-ERR action=SPEED_UP reason=speed_limit".toList =
      "CMD-ERR action=SPEED_UP reason=speed_limit\n".toList := by rfl
  have h2 : send_line "CMD-ACK action=SPEED_UP status=OK".toList =
      "CMD-ACK action=SPEED_UP status=OK\n".toList := by rfl
  rw [h1, h2]

theorem turn_left_admin (c : client_t) (v : vehicle_t)
    (hauth : c.authenticated = true) (hrole : c.role = role_t.ROLE_ADMIN)
    (hb : 10 ≤ v.battery) :
    process_cmd c v "CMD TURN LEFT".toList =
      ({ v with direction_deg := Int.tmod (v.direction_deg + 270) 360 },
        "CMD-ACK action=TURN_LEFT status=OK\n".toList) := by
  rw [process_cmd_admin c v "CMD TURN LEFT".toList "TURN_LEFT".toList hauth hrole rfl hb]
  unfold apply_action
  rw [if_neg (by decide), if_neg (by decide), if_pos rfl]
  rfl

theorem turn_right_admin (c : client_t) (v : vehicle_t)
    (hauth : c.authenticated = true) (hrole : c.role = role_t.ROLE_ADMIN)
    (hb : 10 ≤ v.battery) :
    process_cmd c v "CMD TURN RIGHT".toList =
      ({ v with direction_deg := Int.tmod (v.direction_deg + 90) 360 },
        "CMD-ACK action=TURN_RIGHT status=OK\n".toList) := by
  rw [process_cmd_admin c v "CMD TURN RIGHT".toList "TURN_RIGHT".toList hauth hrole rfl hb]
  unfold apply_action
  rw [if_neg (by decide), if_neg (by decide), if_neg (by decide), if_pos rfl]
  rfl

theorem tmod_turn (d k : Int) (hd : 0 ≤ d) (hk : 0 ≤ k) :
    Int.tmod (d + k) 360 = (d + k) % 360 :=
  Int.tmod_eq_emod (by omega) (by decide)

theorem apply_action_head (action : CStr) (v : vehicle_t) :
    (apply_action action v).2.head? = some 'C' := by
  unfold apply_action
  split
  · split <;> rfl
  · split
    · rfl
    · split
      · rfl
      · split
        · rfl
        · exact head_send_line _ _ rfl

theorem process_cmd_head (c : client_t) (v : vehicle_t) (cmdline : CStr) :
    (process_cmd c v cmdline).2.head? = some 'C' ∨
      (process_cmd c v cmdline).2.head? = some 'E' := by
  unfold process_cmd parse_action
  dsimp only
  split
  · rename_i heq
    split at heq
    · cases heq; right; rfl
    · split at heq
      · cases heq; right; rfl
      · split at heq
        · cases heq; right; rfl
        · cases heq
  · left
    unfold process_cmd_checked
    split
    · exact head_send_line _ _ rfl
    · split
      · exact head_send_line _ _ rfl
      · exact apply_action_head _ _

theorem speed_up_calls_from_grid (c : client_t)
    (hauth : c.authenticated = true) (hrole : c.role = role_t.ROLE_ADMIN) :
    ∀ (bs : List Int) (v : vehicle_t) (j : Nat), j ≤ 12 → v.speed = (j : ℚ) * (5 / 2) →
      (∀ b ∈ bs, 10 ≤ b) →
      (speed_up_calls c v bs).length = bs.length ∧
      (∀ k e, (speed_up_calls c v bs).get? k = some e →
        e.1.speed = ((min (j + k) 12 : Nat) : ℚ) * (5 / 2)) ∧
      ∀ e ∈ speed_up_calls c v bs,
        e.1.speed ≤ 30 ∧ e.2.1.speed ≤ 30 ∧
        ((e.1.speed < 30 ∧ e.2.2 = "CMD-ACK action=SPEED_UP status=OK\n".toList ∧
            e.2.1 = { e.1 with speed := e.1.speed + 5 / 2 }) ∨
         (e.1.speed = 30 ∧ e.2.2 = "CMD-ERR action=SPEED_UP reason=speed_limit\n".toList ∧
            e.2.1 = e.1)) := by
  intro bs
  induction bs with
  | nil =>
      intro v j _ _ _
      simp [speed_up_calls]
  | cons b bs ih =>
      intro v j hj hv hb
      have hb0 : 10 ≤ b := hb b (List.mem_cons_self _ _)
      have hbs : ∀ x ∈ bs, 10 ≤ x := fun x hx => hb x (List.mem_cons_of_mem _ hx)
      have hjq : (j : ℚ) ≤ 12 := by exact_mod_cast hj
      have hcall := speed_up_admin c { v with battery := b } hauth hrole hb0
      simp only [speed_up_calls]
      by_cases hcap : j = 12
      · -- at the cap: rejected
        have hs : v.speed = 30 := by rw [hv, hcap]; norm_num
        have h30 : (30 : ℚ) ≤ ({ v with battery := b } : vehicle_t).speed := by
          show (30 : ℚ) ≤ v.speed
          rw [hs]
        rw [hcall, if_pos h30]
        obtain ⟨ihl, ihk, ihe⟩ := ih { v with battery := b } j hj hv hbs
        refine ⟨by simp [ihl], ?_, ?_⟩
        · intro k e hk
          cases k with
          | zero =>
              simp at hk
              subst hk
              show v.speed = _
              rw [hv, hcap]
              simp
          | succ k =>
              simp only [List.get?_cons_succ] at hk
              have := ihk k e hk
              rw [this, hcap]
              congr 2
              omega
        · intro e he
          rcases List.mem_cons.mp he with h | h
          · subst h
            refine ⟨?_, ?_, Or.inr ⟨?_, rfl, rfl⟩⟩
            · show v.speed ≤ 30
              rw [hs]
            · show v.speed ≤ 30
              rw [hs]
            · exact hs
          · exact ihe e h
      · -- below the cap: accepted
        have hj' : j + 1 ≤ 12 := by omega
        have hlt : v.speed < 30 := by
          rw [hv]
          have : (j : ℚ) ≤ 11 := by exact_mod_cast (by omega : j ≤ 11)
          linarith
        have hn30 : ¬ (30 : ℚ) ≤ ({ v with battery := b } : vehicle_t).speed := by
          show ¬ (30 : ℚ) ≤ v.speed
          linarith
        rw [hcall, if_neg hn30]
        have hv' : ({ { v with battery := b } with speed := v.speed + 5 / 2 } : vehicle_t).speed
            = ((j + 1 : Nat) : ℚ) * (5 / 2) := by
          show v.speed + 5 / 2 = _
          rw [hv]
          push_cast
          ring
        obtain ⟨ihl, ihk, ihe⟩ := ih _ (j + 1) hj' hv' hbs
        refine ⟨by simp [ihl], ?_, ?_⟩
        · intro k e hk
          cases k with
          | zero =>
              simp at hk
              subst hk
              show v.speed = _
              rw [hv]
              congr 2
              omega
          | succ k =>
              simp only [List.get?_cons_succ] at hk
              have := ihk k e hk
              rw [this]
              congr 2
              omega
        · intro e he
          rcases List.mem_cons.mp he with h | h
          · subst h
            refine ⟨?_, ?_, Or.inl ⟨?_, rfl, rfl⟩⟩
            · show v.speed ≤ 30
              linarith
            · show v.speed + 5 / 2 ≤ 30
              rw [hv]
              have : (j : ℚ) ≤ 11 := by exact_mod_cast (by omega : j ≤ 11)
              linarith
            · exact hlt
          · exact ihe e h

/-! ## Auxiliary facts: `handle_line` -/

theorem build_users_list_head (clients : List client_t) :
    (build_users_list clients 8192).head? = some 'U' := by
  simp [build_users_list, snprintf]

/-- What a `handle_line` call can do: either it is a successful AUTH, which
marks the session authenticated with role ADMIN, stores a token of at most 32
bytes, answers `AUTH-OK token=` followed by that token and leaves the vehicle
alone; or it leaves the authenticated flag and the token as they were, its
answer does not start with `AUTH-OK`, and the vehicle is either untouched or
what `process_cmd` made of it. -/
theorem handle_line_cases (sha : CStr → CStr → CStr) (g : Globals) (c : client_t)
    (line : CStr) (r : List Nat) :
    ((handle_line sha g c line r).c.authenticated = true ∧
      (handle_line sha g c line r).c.role = role_t.ROLE_ADMIN ∧
      (handle_line sha g c line r).c.token.length ≤ 32 ∧
      (handle_line sha g c line r).reply =
        "AUTH-OK token=".toList ++ (handle_line sha g c line r).c.token ++ ['\n'] ∧
      (handle_line sha g c line r).vehicle = g.vehicle) ∨
    ((handle_line sha g c line r).c.authenticated = c.authenticated ∧
      (handle_line sha g c line r).c.token = c.token ∧
      ¬ "AUTH-OK".toList <+: (handle_line sha g c line r).reply ∧
      ((handle_line sha g c line r).vehicle = g.vehicle ∨
        (handle_line sha g c line r).vehicle = (process_cmd c g.vehicle line).1)) := by
  unfold handle_line
  dsimp only
  split
  · right; exact ⟨rfl, rfl, by dsimp only; decide, Or.inl rfl⟩
  · split
    · split
      · right; exact ⟨rfl, rfl, by dsimp only; decide, Or.inl rfl⟩
      · split
        · split
          · left
            exact ⟨rfl, rfl, strncpy_token_length _,
              send_auth_ok _ (strncpy_token_length _), rfl⟩
          · right; exact ⟨rfl, rfl, by dsimp only; decide, Or.inl rfl⟩
        · split
          · right; exact ⟨rfl, rfl, by dsimp only; decide, Or.inl rfl⟩
          · split
            · right; exact ⟨rfl, rfl, by dsimp only; decide, Or.inl rfl⟩
            · split
              · right; exact ⟨rfl, rfl, by dsimp only; decide, Or.inl rfl⟩
              · split
                · right; exact ⟨rfl, rfl, by dsimp only; decide, Or.inl rfl⟩
                · split
                  · left
                    exact ⟨rfl, rfl, le_of_eq (gen_token_length r),
                      send_auth_ok _ (le_of_eq (gen_token_length r)), rfl⟩
                  · right; exact ⟨rfl, rfl, by dsimp only; decide, Or.inl rfl⟩
    · split
      · split
        · right; exact ⟨rfl, rfl, by dsimp only; decide, Or.inl rfl⟩
        · split
          · right; exact ⟨rfl, rfl, by dsimp only; decide, Or.inl rfl⟩
          · right; exact ⟨rfl, rfl, by dsimp only; decide, Or.inl rfl⟩
      · split
        · split
          · right; exact ⟨rfl, rfl, by dsimp only; decide, Or.inl rfl⟩
          · right
            refine ⟨rfl, rfl, ?_, Or.inl rfl⟩
            exact not_auth_ok_of_head _ 'U'
              (head_send_line _ _ (build_users_list_head _)) (by decide)
        · split
          · right
            refine ⟨rfl, rfl, ?_, Or.inr rfl⟩
            rcases process_cmd_head c g.vehicle line with h | h
            · exact not_auth_ok_of_head _ 'C' h (by decide)
            · exact not_auth_ok_of_head _ 'E' h (by decide)
          · split
            · right; exact ⟨rfl, rfl, by dsimp only; decide, Or.inl rfl⟩
            · right; exact ⟨rfl, rfl, by dsimp only; decide, Or.inl rfl⟩

theorem handle_line_keeps_unauthenticated (sha : CStr → CStr → CStr) (g : Globals)
    (c : client_t) (line : CStr) (r : List Nat) (hc : c.authenticated = false)
    (hno : ¬ "AUTH-OK".toList <+: (handle_line sha g c line r).reply) :
    (handle_line sha g c line r).c.authenticated = false := by
  rcases handle_line_cases sha g c line r with ⟨_, _, _, hr, _⟩ | ⟨ha, _, _, _⟩
  · exfalso
    apply hno
    rw [hr]
    exact ⟨" token=".toList ++ (handle_line sha g c line r).c.token ++ ['\n'], by simp⟩
  · rw [ha, hc]

/-- How `handle_line` treats `AUTH token=t` when `t` has no line break and
at most 32 bytes: it succeeds exactly when some registered session stores
`t` as its token. -/
theorem handle_line_token (sha : CStr → CStr → CStr) (g : Globals) (c : client_t)
    (t : CStr) (r : List Nat) (h : ∀ ch ∈ t, ch ≠ '\r' ∧ ch ≠ '\n') (hlen : t.length ≤ 32) :
    handle_line sha g c ("AUTH token=".toList ++ t) r =
      if g.clients.any (fun it => decide (it.token = t)) then
        ⟨{ c with authenticated := true, token := t, role := role_t.ROLE_ADMIN }, g.vehicle,
          "AUTH-OK token=".toList ++ t ++ ['\n'], false⟩
      else
        ⟨c, g.vehicle, "AUTH-ERR reason=invalid_token\n".toList, false⟩ := by
  have hcopy : strncpy ("AUTH token=".toList ++ t) (MAXLINE - 1) = "AUTH token=".toList ++ t := by
    unfold strncpy MAXLINE
    apply List.take_of_length_le
    simp only [List.length_append]
    have : "AUTH token=".toList.length = 11 := by decide
    omega
  have htok : strncpy t (TOKEN_LEN - 1) = t := by
    unfold strncpy TOKEN_LEN
    exact List.take_of_length_le (by omega)
  unfold handle_line
  simp only [hcopy, strtok_auth_token, if_true, strtok_token_arg t h]
  have h6 : ("token=".toList ++ t).take 6 = "token=".toList := by
    rw [List.take_append_of_le_length (by decide)]
    rfl
  have hd : ("token=".toList ++ t).drop 6 = t := by
    rw [List.drop_append_of_le_length (by decide)]
    rfl
  simp only [h6, hd, if_true, htok]
  split
  · rw [send_auth_ok t hlen]
  · rfl

/-- An AUTH answered `AUTH-OK token=t` leaves `t` as the stored token of the
session. -/
theorem issued_token_stored (sha : CStr → CStr → CStr) (g : Globals) (c : client_t)
    (line : CStr) (r : List Nat) (t : CStr)
    (hissue : (handle_line sha g c line r).reply = "AUTH-OK token=".toList ++ t ++ ['\n']) :
    (handle_line sha g c line r).c.token = t := by
  rcases handle_line_cases sha g c line r with ⟨_, _, _, hr, _⟩ | ⟨_, _, hno, _⟩
  · rw [hr] at hissue
    have h1 := List.append_cancel_right hissue
    exact List.append_cancel_left h1
  · exfalso
    apply hno
    rw [hissue]
    exact ⟨" token=".toList ++ t ++ ['\n'], by simp⟩

/-- Lines that are not answered AUTH-OK leave the stored token of the
session as it was. -/
theorem session_run_keeps_token (sha : CStr → CStr → CStr) :
    ∀ (calls : List (Globals × CStr × List Nat)) (c : client_t),
      (∀ reply ∈ (session_run sha c calls).2, ¬ "AUTH-OK".toList <+: reply) →
      (session_run sha c calls).1.token = c.token := by
  intro calls
  induction calls with
  | nil => intro c _; rfl
  | cons call calls ih =>
      intro c hno
      obtain ⟨g, line, r⟩ := call
      simp only [session_run] at hno ⊢
      have hfirst := hno _ (List.mem_cons_self _ _)
      have hrest := ih (handle_line sha g c line r).c
        (fun reply hr => hno reply (List.mem_cons_of_mem _ hr))
      rw [hrest]
      rcases handle_line_cases sha g c line r with ⟨_, _, _, hr, _⟩ | ⟨_, htok, _, _⟩
      · exfalso
        apply hfirst
        rw [hr]
        exact ⟨" token=".toList ++ (handle_line sha g c line r).c.token ++ ['\n'], by simp⟩
      · exact htok

/-- Token logins that the code does refuse: with every stored token empty,
a non-empty token of at most 32 bytes and without line breaks is answered
`AUTH-ERR reason=invalid_token` and the session record is left as it was. -/
theorem unknown_token_refused (sha : CStr → CStr → CStr) (g : Globals) (c : client_t)
    (t : CStr) (r : List Nat) (hall : ∀ it ∈ g.clients, it.token = [])
    (hne : t ≠ []) (h : ∀ ch ∈ t, ch ≠ '\r' ∧ ch ≠ '\n') (hlen : t.length ≤ 32) :
    handle_line sha g c ("AUTH token=".toList ++ t) r =
      ⟨c, g.vehicle, "AUTH-ERR reason=invalid_token\n".toList, false⟩ := by
  rw [handle_line_token sha g c t r h hlen]
  have hany : ¬ g.clients.any (fun it => decide (it.token = t)) = true := by
    rw [List.any_eq_true]
    rintro ⟨it, hit, heq⟩
    have h1 := hall it hit
    have h2 : it.token = t := by simpa using heq
    rw [h1] at h2
    exact hne h2.symm
  rw [if_neg hany]

/-- LIST_USERS from a session that is not an authenticated administrator is
answered `ERR not_authorized` and changes nothing. -/
theorem list_users_not_authorized (sha : CStr → CStr → CStr) (g : Globals) (c : client_t)
    (r : List Nat) (hc : c.authenticated = false ∨ c.role ≠ role_t.ROLE_ADMIN) :
    handle_line sha g c "LIST_USERS".toList r =
      ⟨c, g.vehicle, "ERR not_authorized\n".toList, false⟩ := by
  have hguard : (!c.authenticated || c.role != role_t.ROLE_ADMIN) = true := by
    rcases hc with h | h
    · simp [h]
    · simp [h]
  have hs : strtok (strncpy "LIST_USERS".toList (MAXLINE - 1)) " \t\r\n".toList =
      some ("LIST_USERS".toList, []) := rfl
  unfold handle_line
  simp only [hs]
  rw [if_pos trivial, if_pos hguard]
  rfl

theorem build_users_loop_fits :
    ∀ (clients : List client_t) (tmp : CStr) (count : Int),
      tmp.length + ((clients.map users_line).flatten).length ≤ 4095 →
      build_users_loop clients tmp count =
        (tmp ++ (clients.map users_line).flatten, count + clients.length) := by
  intro clients
  induction clients with
  | nil => intro tmp count _; simp [build_users_loop]
  | cons it rest ih =>
      intro tmp count hfit
      simp only [List.map_cons, List.flatten_cons, List.length_append] at hfit
      unfold build_users_loop
      have hcat : strncat tmp (users_line it) (4096 - tmp.length - 1) = tmp ++ users_line it := by
        unfold strncat
        rw [List.take_of_length_le (by omega)]
      rw [hcat, ih _ _ (by simp only [List.length_append]; omega)]
      simp only [List.map_cons, List.flatten_cons, List.append_assoc, List.length_cons,
        Nat.cast_add, Nat.cast_one, Prod.mk.injEq, true_and]
      omega

/-- LIST_USERS from an authenticated administrator when the listing fits
the buffers (at most 2045 bytes in all): the answer is `USERS n` with `n` the
number of registered sessions, then one line per registered session in
registry order, then the line feed `send_line` adds. -/
theorem list_users_fits (sha : CStr → CStr → CStr) (g : Globals) (c : client_t)
    (r : List Nat) (hauth : c.authenticated = true) (hrole : c.role = role_t.ROLE_ADMIN)
    (hfit : ("USERS ".toList ++ fmt_d g.clients.length ++ ['\n'] ++
      (g.clients.map users_line).flatten).length ≤ 2045) :
    handle_line sha g c "LIST_USERS".toList r =
      ⟨c, g.vehicle, "USERS ".toList ++ fmt_d g.clients.length ++ ['\n'] ++
        (g.clients.map users_line).flatten ++ ['\n'], false⟩ := by
  have hguard : ¬ (!c.authenticated || c.role != role_t.ROLE_ADMIN) = true := by
    simp [hauth, hrole]
  have hs : strtok (strncpy "LIST_USERS".toList (MAXLINE - 1)) " \t\r\n".toList =
      some ("LIST_USERS".toList, []) := rfl
  have hlen := hfit
  simp only [List.length_append] at hlen
  have hloop := build_users_loop_fits g.clients [] 0 (by simp only [List.length_nil]; omega)
  have hlist : build_users_list g.clients 8192 =
      "USERS ".toList ++ fmt_d g.clients.length ++ ['\n'] ++
        (g.clients.map users_line).flatten := by
    unfold build_users_list
    simp only [hloop, snprintf, List.nil_append, zero_add]
    exact List.take_of_length_le (by omega)
  unfold handle_line
  simp only [hs]
  rw [if_pos trivial, if_neg hguard, hlist, send_line_short _ hfit]
  rfl

/-! ## Auxiliary facts: the vehicle invariant -/

theorem apply_action_inv (action : CStr) (v : vehicle_t) (h : vehicle_inv v) :
    vehicle_inv (apply_action action v).1 := by
  obtain ⟨⟨k, hk, hs⟩, hb0, hb1, hd0, hd1⟩ := h
  unfold apply_action
  split
  · split
    · exact ⟨⟨k, hk, hs⟩, hb0, hb1, hd0, hd1⟩
    · rename_i hlt
      refine ⟨⟨k + 1, ?_, ?_⟩, hb0, hb1, hd0, hd1⟩
      · by_contra hcon
        have hk12 : k = 12 := by omega
        apply hlt
        rw [hs, hk12]
        norm_num
      · show v.speed + 5 / 2 = _
        rw [hs]
        push_cast
        ring
  · split
    · refine ⟨?_, hb0, hb1, hd0, hd1⟩
      show ∃ j : Nat, j ≤ 12 ∧ (if v.speed ≤ 0 then 0 else v.speed - 5 / 2) = (j : ℚ) * (5 / 2)
      split
      · exact ⟨0, by omega, by simp⟩
      · rename_i hpos
        have hk0 : k ≠ 0 := by
          intro h0
          apply hpos
          rw [hs, h0]
          simp
        refine ⟨k - 1, by omega, ?_⟩
        rw [hs]
        have : ((k - 1 : Nat) : ℚ) = (k : ℚ) - 1 := by
          rw [Nat.cast_sub (by omega)]
          simp
        rw [this]
        ring
    · split
      · refine ⟨⟨k, hk, hs⟩, hb0, hb1, ?_, ?_⟩
        · show 0 ≤ Int.tmod (v.direction_deg + 270) 360
          rw [tmod_turn _ 270 hd0 (by decide)]
          omega
        · show Int.tmod (v.direction_deg + 270) 360 < 360
          rw [tmod_turn _ 270 hd0 (by decide)]
          omega
      · split
        · refine ⟨⟨k, hk, hs⟩, hb0, hb1, ?_, ?_⟩
          · show 0 ≤ Int.tmod (v.direction_deg + 90) 360
            rw [tmod_turn _ 90 hd0 (by decide)]
            omega
          · show Int.tmod (v.direction_deg + 90) 360 < 360
            rw [tmod_turn _ 90 hd0 (by decide)]
            omega
        · exact ⟨⟨k, hk, hs⟩, hb0, hb1, hd0, hd1⟩

theorem process_cmd_inv (c : client_t) (v : vehicle_t) (cmdline : CStr) (h : vehicle_inv v) :
    vehicle_inv (process_cmd c v cmdline).1 := by
  unfold process_cmd
  split
  · exact h
  · unfold process_cmd_checked
    split
    · exact h
    · split
      · exact h
      · exact apply_action_inv _ _ h

theorem handle_line_inv (sha : CStr → CStr → CStr) (g : Globals) (c : client_t)
    (line : CStr) (r : List Nat) (h : vehicle_inv g.vehicle) :
    vehicle_inv (handle_line sha g c line r).vehicle := by
  rcases handle_line_cases sha g c line r with ⟨_, _, _, _, hv⟩ | ⟨_, _, _, hv | hv⟩
  · rw [hv]; exact h
  · rw [hv]; exact h
  · rw [hv]; exact process_cmd_inv _ _ _ h

theorem broadcaster_update_inv (v : vehicle_t) (h : vehicle_inv v) :
    vehicle_inv (broadcaster_update v) := by
  obtain ⟨hg, hb0, hb1, hd0, hd1⟩ := h
  refine ⟨hg, ?_, ?_, hd0, hd1⟩
  · show 0 ≤ (broadcaster_update v).battery
    unfold broadcaster_update
    dsimp only
    split_ifs <;> omega
  · show (broadcaster_update v).battery ≤ 100
    unfold broadcaster_update
    dsimp only
    split_ifs <;> omega

theorem step_inv (sha : CStr → CStr → CStr) (g : Globals) (ev : Event)
    (h : vehicle_inv g.vehicle) : vehicle_inv (step sha g ev).1.vehicle := by
  cases ev with
  | accept connfd cliaddr => exact h
  | line i text r =>
      show vehicle_inv (match g.clients.get? i with
        | none => (g, [])
        | some c =>
            let h := handle_line sha g c text r
            (({ g with clients := g.clients.set i h.c, vehicle := h.vehicle } : Globals),
              [(h.c, h.reply)])).1.vehicle
      cases g.clients.get? i with
      | none => exact h
      | some c => exact handle_line_inv sha g c text r h
  | tick ts send_fails => exact broadcaster_update_inv _ h
  | disconnect i => exact h

theorem run_inv (sha : CStr → CStr → CStr) (evs : List Event) :
    ∀ g : Globals, vehicle_inv g.vehicle → vehicle_inv (run sha g evs).vehicle := by
  induction evs with
  | nil => intro g h; exact h
  | cons ev evs ih =>
      intro g h
      exact ih _ (step_inv sha g ev h)

theorem init_inv (cred_present : Bool) (admin_cred : cred_t) :
    vehicle_inv (init_globals cred_present admin_cred).vehicle :=
  ⟨⟨0, by omega, by simp [init_globals]⟩, by simp [init_globals], by simp [init_globals],
    by simp [init_globals], by simp [init_globals]⟩

/-- Every speed the server can reach is a multiple of 2.5 between 0 and 30,
so the rational model of the `double` field is exact. -/
theorem speed_grid_of_reachable (sha : CStr → CStr → CStr) (cred_present : Bool)
    (admin_cred : cred_t) (evs : List Event) :
    ∃ k : Nat, k ≤ 12 ∧
      (run sha (init_globals cred_present admin_cred) evs).vehicle.speed = (k : ℚ) * (5 / 2) :=
  (run_inv sha evs _ (init_inv cred_present admin_cred)).1

/-! ## Auxiliary facts: the broadcast pass -/

/-- When every failing send returns, the list walk of `broadcast_telemetry`
keeps, in order, every session except the authenticated ones whose send
failed, writes, in order, to the authenticated ones whose send succeeded,
and the process lives on. -/
theorem broadcast_loop_eq (send_fails : client_t → Bool) (clients : List client_t) :
    ∀ kept : List client_t,
      broadcast_loop (returning send_fails) kept clients =
        ⟨kept ++ clients.filter (fun it => !(it.authenticated && send_fails it)),
          clients.filter (fun it => it.authenticated && !send_fails it), false⟩ := by
  induction clients with
  | nil => intro kept; simp [broadcast_loop]
  | cons it rest ih =>
      intro kept
      unfold broadcast_loop
      cases ha : it.authenticated
      · simp [ih, ha]
      · cases hf : send_fails it
        · simp [ih, ha, hf, returning]
        · simp [ih, ha, hf, returning]

/-- The walk up to the first SIGPIPE: when the sends to the sessions before
`it` all return and the send of line 270 to the authenticated session `it`
raises SIGPIPE, the walk has unlinked the earlier authenticated sessions whose
send failed, has written to the earlier ones whose send succeeded, and ends
there: `it` and everything behind it stay linked and unwritten. -/
theorem broadcast_loop_sigpipe (send : client_t → send_result) (it : client_t)
    (post : List client_t) (hit : it.authenticated = true)
    (hsig : send it = send_result.sigpipe) :
    ∀ (pre kept : List client_t),
      (∀ x ∈ pre, x.authenticated = true →
        send x = send_result.sent ∨ send x = send_result.failed) →
      broadcast_loop send kept (pre ++ it :: post) =
        ⟨kept ++ pre.filter (fun x => !(x.authenticated && decide (send x = send_result.failed)))
            ++ it :: post,
          pre.filter (fun x => x.authenticated && decide (send x = send_result.sent)), true⟩ := by
  intro pre
  induction pre with
  | nil =>
      intro kept _
      simp [broadcast_loop, hit, hsig]
  | cons x pre ih =>
      intro kept hpre
      have hrest : ∀ y ∈ pre, y.authenticated = true →
          send y = send_result.sent ∨ send y = send_result.failed :=
        fun y hy => hpre y (List.mem_cons_of_mem _ hy)
      rw [List.cons_append]
      unfold broadcast_loop
      cases ha : x.authenticated
      · simp [ih _ hrest, ha]
      · rcases hpre x (List.mem_cons_self _ _) ha with hs | hs
        · simp [ih _ hrest, ha, hs]
        · simp [ih _ hrest, ha, hs]

/-! ## Speed-up runs -/

/-- C1: a run of SPEED UP commands by an authenticated administrator, from
speed 0 and with battery at least 10 at each call.  Every call is answered;
the speed before call number `k` is 2.5 times the smaller of `k` and 12; the
speed never exceeds 30; the answer is either the acknowledgement or the
speed_limit refusal; an acknowledged call adds exactly 2.5; a call made at
speed 30 is refused with speed_limit and leaves the vehicle as it was. -/
theorem speed_up_sequence (c : client_t) (v : vehicle_t) (bs : List Int)
    (hauth : c.authenticated = true) (hrole : c.role = role_t.ROLE_ADMIN)
    (hv : v.speed = 0) (hb : ∀ b ∈ bs, 10 ≤ b) :
    (speed_up_calls c v bs).length = bs.length ∧
    (∀ k e, (speed_up_calls c v bs).get? k = some e →
      e.1.speed = ((min k 12 : Nat) : ℚ) * (5 / 2)) ∧
    ∀ e ∈ speed_up_calls c v bs,
      e.1.speed ≤ 30 ∧ e.2.1.speed ≤ 30 ∧
      (e.2.2 = "CMD-ACK action=SPEED_UP status=OK\n".toList ∨
        e.2.2 = "CMD-ERR action=SPEED_UP reason=speed_limit\n".toList) ∧
      (e.2.2 = "CMD-ACK action=SPEED_UP status=OK\n".toList →
        e.2.1.speed = e.1.speed + 5 / 2) ∧
      (e.1.speed = 30 →
        e.2.2 = "CMD-ERR action=SPEED_UP reason=speed_limit\n".toList ∧ e.2.1 = e.1) := by
  have hv0 : v.speed = ((0 : Nat) : ℚ) * (5 / 2) := by rw [hv]; simp
  obtain ⟨hl, hk, he⟩ := speed_up_calls_from_grid c hauth hrole bs v 0 (by omega) hv0 hb
  refine ⟨hl, ?_, ?_⟩
  · intro k e h
    have := hk k e h
    rwa [Nat.zero_add] at this
  · intro e hmem
    obtain ⟨h1, h2, h3⟩ := he e hmem
    refine ⟨h1, h2, ?_, ?_, ?_⟩
    · rcases h3 with ⟨_, hr, _⟩ | ⟨_, hr, _⟩
      · exact Or.inl hr
      · exact Or.inr hr
    · intro hack
      rcases h3 with ⟨_, _, hs⟩ | ⟨_, hr, _⟩
      · rw [hs]
      · rw [hr] at hack
        exact absurd hack (by decide)
    · intro hcap
      rcases h3 with ⟨hlt, _, _⟩ | ⟨_, hr, hs⟩
      · rw [hcap] at hlt
        exact absurd hlt (lt_irrefl _)
      · exact ⟨hr, hs⟩

/-- C1 at a concrete run: thirteen calls at battery 50 from a standing
vehicle. -/
theorem speed_up_sequence_witness :
    (speed_up_calls ⟨5, ⟨10, 0, 0, 1, 40000⟩, role_t.ROLE_ADMIN, true, []⟩ ⟨0, 100, 0⟩
        (List.replicate 13 50)).length = 13 ∧
    ∀ e ∈ speed_up_calls ⟨5, ⟨10, 0, 0, 1, 40000⟩, role_t.ROLE_ADMIN, true, []⟩ ⟨0, 100, 0⟩
        (List.replicate 13 50),
      e.1.speed = 30 →
        e.2.2 = "CMD-ERR action=SPEED_UP reason=speed_limit\n".toList ∧ e.2.1 = e.1 :=
  have h := speed_up_sequence ⟨5, ⟨10, 0, 0, 1, 40000⟩, role_t.ROLE_ADMIN, true, []⟩
    ⟨0, 100, 0⟩ (List.replicate 13 50) rfl rfl rfl
    (fun b hb => by rw [List.eq_of_mem_replicate hb]; decide)
  ⟨h.1, fun e he => (h.2.2 e he).2.2.2.2⟩

/-! ## Authorization and battery checks -/

/-- C2: a session that is not authenticated, or whose role is not ADMIN,
sending any command line that carries an action, is answered CMD-ERR with
reason not_authorized, whatever the vehicle state, and the vehicle state is
left as it was. -/
theorem process_cmd_not_authorized (c : client_t) (v : vehicle_t) (cmdline action : CStr)
    (hc : c.authenticated = false ∨ c.role ≠ role_t.ROLE_ADMIN)
    (ha : parse_action cmdline = Except.ok action) :
    process_cmd c v cmdline =
      (v, "CMD-ERR action=".toList ++ action ++ " reason=not_authorized\n".toList) := by
  have hlen := parse_action_ok_length cmdline action ha
  have hguard : (!c.authenticated || c.role != role_t.ROLE_ADMIN) = true := by
    rcases hc with h | h
    · simp [h]
    · simp [h]
  unfold process_cmd
  rw [ha]
  simp only [process_cmd_checked, hguard, if_true]
  rw [send_cmd_err action _ hlen (by decide)]
  simp

/-- C2 at a concrete input: a fresh session asking for SPEED UP at
battery 5. -/
theorem process_cmd_not_authorized_witness :
    process_cmd (new_client 4 ⟨10, 0, 0, 1, 40000⟩) ⟨0, 5, 0⟩ "CMD SPEED UP".toList =
      (⟨0, 5, 0⟩, "CMD-ERR action=".toList ++ "SPEED_UP".toList ++
        " reason=not_authorized\n".toList) :=
  process_cmd_not_authorized (new_client 4 ⟨10, 0, 0, 1, 40000⟩) ⟨0, 5, 0⟩
    "CMD SPEED UP".toList "SPEED_UP".toList (Or.inl rfl) rfl

/-- C3 as stated fails: an unauthenticated session sending a command at
battery 5 is answered not_authorized, not battery_low. -/
theorem battery_low_any_role_counterexample :
    (⟨0, 5, 0⟩ : vehicle_t).battery < 10 ∧
    parse_action "CMD SPEED UP".toList = Except.ok "SPEED_UP".toList ∧
    (process_cmd (new_client 4 ⟨10, 0, 0, 1, 40000⟩) ⟨0, 5, 0⟩ "CMD SPEED UP".toList).2 =
      "CMD-ERR action=SPEED_UP reason=not_authorized\n".toList ∧
    (process_cmd (new_client 4 ⟨10, 0, 0, 1, 40000⟩) ⟨0, 5, 0⟩ "CMD SPEED UP".toList).2 ≠
      "CMD-ERR action=SPEED_UP reason=battery_low\n".toList := by
  refine ⟨by decide, rfl, rfl, ?_⟩
  have h : (process_cmd (new_client 4 ⟨10, 0, 0, 1, 40000⟩) ⟨0, 5, 0⟩
      "CMD SPEED UP".toList).2 = "CMD-ERR action=SPEED_UP reason=not_authorized\n".toList := rfl
  rw [h]
  decide

/-- C3 amended: with the battery below 10, every command line that carries
an action leaves the vehicle state as it was, whoever sends it; the answer
is CMD-ERR with reason battery_low when the sender is an authenticated
administrator, and CMD-ERR with reason not_authorized otherwise. -/
theorem process_cmd_battery_low (c : client_t) (v : vehicle_t) (cmdline action : CStr)
    (ha : parse_action cmdline = Except.ok action) (hb : v.battery < 10) :
    (process_cmd c v cmdline).1 = v ∧
    (c.authenticated = true ∧ c.role = role_t.ROLE_ADMIN →
      (process_cmd c v cmdline).2 =
        "CMD-ERR action=".toList ++ action ++ " reason=battery_low\n".toList) ∧
    (¬ (c.authenticated = true ∧ c.role = role_t.ROLE_ADMIN) →
      (process_cmd c v cmdline).2 =
        "CMD-ERR action=".toList ++ action ++ " reason=not_authorized\n".toList) := by
  have hlen := parse_action_ok_length cmdline action ha
  rw [process_cmd_of_action c v cmdline action ha]
  by_cases hadm : c.authenticated = true ∧ c.role = role_t.ROLE_ADMIN
  · obtain ⟨h1, h2⟩ := hadm
    have hchk : process_cmd_checked c v.battery action v =
        (v, send_line ("CMD-ERR action=".toList ++ action ++ " reason=battery_low".toList)) := by
      unfold process_cmd_checked
      rw [if_neg (by simp [h1, h2]), if_pos hb]
    rw [hchk, send_cmd_err action _ hlen (by decide)]
    simp [h1, h2]
  · have hguard : (!c.authenticated || c.role != role_t.ROLE_ADMIN) = true := by
      by_cases h1 : c.authenticated = true
      · have h2 : c.role ≠ role_t.ROLE_ADMIN := fun h => hadm ⟨h1, h⟩
        simp [h2]
      · simp [h1]
    have hchk : process_cmd_checked c v.battery action v =
        (v, send_line ("CMD-ERR action=".toList ++ action ++ " reason=not_authorized".toList)) := by
      unfold process_cmd_checked
      rw [if_pos hguard]
    rw [hchk, send_cmd_err action _ hlen (by decide)]
    simp [hadm]

/-- C3 amended, at a concrete input: an authenticated administrator asking
for SPEED UP at battery 5. -/
theorem process_cmd_battery_low_witness :
    (process_cmd ⟨5, ⟨10, 0, 0, 1, 40000⟩, role_t.ROLE_ADMIN, true, []⟩ ⟨0, 5, 0⟩
        "CMD SPEED UP".toList).1 = ⟨0, 5, 0⟩ ∧
    (process_cmd ⟨5, ⟨10, 0, 0, 1, 40000⟩, role_t.ROLE_ADMIN, true, []⟩ ⟨0, 5, 0⟩
        "CMD SPEED UP".toList).2 =
      "CMD-ERR action=".toList ++ "SPEED_UP".toList ++ " reason=battery_low\n".toList :=
  have h := process_cmd_battery_low ⟨5, ⟨10, 0, 0, 1, 40000⟩, role_t.ROLE_ADMIN, true, []⟩
    ⟨0, 5, 0⟩ "CMD SPEED UP".toList "SPEED_UP".toList rfl (by decide)
  ⟨h.1, h.2.1 ⟨rfl, rfl⟩⟩

/-! ## Token login without an issued token -/

/-- C4, the defect: on a server where nobody has logged in, a freshly
accepted connection that sends `AUTH token=` (an empty token) is answered
`AUTH-OK token=` and becomes an authenticated administrator, because the
loop of lines 410-413 compares the presented text with the empty token field
of every registered session, the sender's own included, without looking at
the authenticated flag as `find_client_by_token` does.  Its next
`CMD SPEED UP` is then acknowledged. -/
theorem empty_token_login_accepted (sha : CStr → CStr → CStr) (cred : cred_t) :
    run sha (init_globals true cred) [Event.accept 4 ⟨10, 0, 0, 1, 40000⟩] =
      { clients := [new_client 4 ⟨10, 0, 0, 1, 40000⟩], cred_present := true,
        admin_cred := cred, vehicle := ⟨0, 100, 0⟩ } ∧
    step sha { clients := [new_client 4 ⟨10, 0, 0, 1, 40000⟩], cred_present := true,
               admin_cred := cred, vehicle := ⟨0, 100, 0⟩ }
        (Event.line 0 "AUTH token=".toList []) =
      ({ clients := [⟨4, ⟨10, 0, 0, 1, 40000⟩, role_t.ROLE_ADMIN, true, []⟩],
         cred_present := true, admin_cred := cred, vehicle := ⟨0, 100, 0⟩ },
        [(⟨4, ⟨10, 0, 0, 1, 40000⟩, role_t.ROLE_ADMIN, true, []⟩,
          "AUTH-OK token=\n".toList)]) ∧
    (step sha { clients := [⟨4, ⟨10, 0, 0, 1, 40000⟩, role_t.ROLE_ADMIN, true, []⟩],
                cred_present := true, admin_cred := cred, vehicle := ⟨0, 100, 0⟩ }
        (Event.line 0 "CMD SPEED UP".toList [])).2 =
      [(⟨4, ⟨10, 0, 0, 1, 40000⟩, role_t.ROLE_ADMIN, true, []⟩,
        "CMD-ACK action=SPEED_UP status=OK\n".toList)] := by
  refine ⟨rfl, rfl, ?_⟩
  show [((⟨4, ⟨10, 0, 0, 1, 40000⟩, role_t.ROLE_ADMIN, true, []⟩ : client_t),
      (process_cmd ⟨4, ⟨10, 0, 0, 1, 40000⟩, role_t.ROLE_ADMIN, true, []⟩ ⟨0, 100, 0⟩
        "CMD SPEED UP".toList).2)] = _
  rw [speed_up_admin _ _ rfl rfl (by decide)]
  rw [if_neg (by norm_num)]

/-! ## Vehicle bounds -/

/-- C5: in every state reachable from the initial state (speed 0, battery
100, heading 0) by accepted connections, command lines of any sessions,
broadcaster ticks and disconnections, the speed is within [0, 30], the
battery within [0, 100] and the heading within [0, 360). -/
theorem vehicle_bounds_invariant (sha : CStr → CStr → CStr) (cred_present : Bool)
    (admin_cred : cred_t) (evs : List Event) :
    vehicle_in_bounds (run sha (init_globals cred_present admin_cred) evs).vehicle := by
  obtain ⟨⟨k, hk, hs⟩, hb0, hb1, hd0, hd1⟩ :=
    run_inv sha evs _ (init_inv cred_present admin_cred)
  have hkq : (k : ℚ) ≤ 12 := by exact_mod_cast hk
  have hk0 : (0 : ℚ) ≤ (k : ℚ) := Nat.cast_nonneg k
  refine ⟨?_, ?_, hb0, hb1, hd0, hd1⟩
  · rw [hs]; linarith
  · rw [hs]; linarith

/-! ## Turns -/

/-- C6: for an authenticated administrator with battery at least 10 and a
heading in [0, 360), TURN LEFT followed by TURN RIGHT gives back the same
vehicle state, and so do four TURN RIGHT commands in a row. -/
theorem turn_round_trips (c : client_t) (v : vehicle_t)
    (hauth : c.authenticated = true) (hrole : c.role = role_t.ROLE_ADMIN)
    (hb : 10 ≤ v.battery) (h0 : 0 ≤ v.direction_deg) (h1 : v.direction_deg < 360) :
    (process_cmd c (process_cmd c v "CMD TURN LEFT".toList).1 "CMD TURN RIGHT".toList).1 = v ∧
    (process_cmd c (process_cmd c (process_cmd c (process_cmd c v
        "CMD TURN RIGHT".toList).1 "CMD TURN RIGHT".toList).1
        "CMD TURN RIGHT".toList).1 "CMD TURN RIGHT".toList).1 = v := by
  obtain ⟨s, b, d⟩ := v
  simp only at hb h0 h1
  constructor
  · rw [turn_left_admin c ⟨s, b, d⟩ hauth hrole hb]
    rw [turn_right_admin c ⟨s, b, _⟩ hauth hrole hb]
    simp only [vehicle_t.mk.injEq, true_and]
    rw [tmod_turn d 270 h0 (by decide)]
    rw [tmod_turn ((d + 270) % 360) 90 (by omega) (by decide)]
    omega
  · rw [turn_right_admin c ⟨s, b, d⟩ hauth hrole hb]
    rw [turn_right_admin c ⟨s, b, _⟩ hauth hrole hb]
    rw [turn_right_admin c ⟨s, b, _⟩ hauth hrole hb]
    rw [turn_right_admin c ⟨s, b, _⟩ hauth hrole hb]
    simp only [vehicle_t.mk.injEq, true_and]
    rw [tmod_turn d 90 h0 (by decide)]
    rw [tmod_turn ((d + 90) % 360) 90 (by omega) (by decide)]
    rw [tmod_turn (((d + 90) % 360 + 90) % 360) 90 (by omega) (by decide)]
    rw [tmod_turn ((((d + 90) % 360 + 90) % 360 + 90) % 360) 90 (by omega) (by decide)]
    omega

/-- C6 at a concrete input: heading 270, battery 50. -/
theorem turn_round_trips_witness :
    (process_cmd ⟨5, ⟨10, 0, 0, 1, 40000⟩, role_t.ROLE_ADMIN, true, []⟩
      (process_cmd ⟨5, ⟨10, 0, 0, 1, 40000⟩, role_t.ROLE_ADMIN, true, []⟩ ⟨5, 50, 270⟩
        "CMD TURN LEFT".toList).1 "CMD TURN RIGHT".toList).1 = ⟨5, 50, 270⟩ :=
  (turn_round_trips ⟨5, ⟨10, 0, 0, 1, 40000⟩, role_t.ROLE_ADMIN, true, []⟩ ⟨5, 50, 270⟩
    rfl rfl (by decide) (by decide) (by decide)).1

/-! ## Token re-entry -/

/-- C7 amended: session A sends an AUTH line that is answered
`AUTH-OK token=t`, with `t` of 32 hexadecimal digits (as a password login
issues).  A may then handle any further lines (`calls`), as long as none of
them is answered AUTH-OK again (a new login overwrites the stored token,
lines 445-447).  In any state whose registry still holds A's record, the
line `AUTH token=t` from the session at any position `j` of the registry is
answered `AUTH-OK token=t`, and that session is left authenticated, with
role ADMIN and stored token `t`; nothing else changes. -/
theorem token_reentry (sha : CStr → CStr → CStr) (g0 : Globals) (a0 : client_t)
    (line0 : CStr) (r0 : List Nat) (t : CStr) (calls : List (Globals × CStr × List Nat))
    (g : Globals) (j : Nat) (b : client_t) (r : List Nat)
    (hissue : (handle_line sha g0 a0 line0 r0).reply = "AUTH-OK token=".toList ++ t ++ ['\n'])
    (ht : is_hex32 t)
    (hno : ∀ reply ∈ (session_run sha (handle_line sha g0 a0 line0 r0).c calls).2,
      ¬ "AUTH-OK".toList <+: reply)
    (hreg : (session_run sha (handle_line sha g0 a0 line0 r0).c calls).1 ∈ g.clients)
    (hj : g.clients.get? j = some b) :
    step sha g (Event.line j ("AUTH token=".toList ++ t) r) =
      ({ g with clients := (g.clients.set j
          { b with authenticated := true, token := t, role := role_t.ROLE_ADMIN }) },
        [({ b with authenticated := true, token := t, role := role_t.ROLE_ADMIN },
          "AUTH-OK token=".toList ++ t ++ ['\n'])]) := by
  have htok := issued_token_stored sha g0 a0 line0 r0 t hissue
  have hkeep := session_run_keeps_token sha calls _ hno
  have hany : g.clients.any (fun it => decide (it.token = t)) = true := by
    rw [List.any_eq_true]
    exact ⟨_, hreg, by simp [hkeep, htok]⟩
  have hline := handle_line_token sha g b t r (no_crlf_of_hex32 t ht) (le_of_eq ht.1)
  rw [if_pos hany] at hline
  show (match g.clients.get? j with
    | none => (g, [])
    | some c =>
        let h := handle_line sha g c ("AUTH token=".toList ++ t) r
        (({ g with clients := g.clients.set j h.c, vehicle := h.vehicle } : Globals),
          [(h.c, h.reply)])) = _
  rw [hj]
  simp only [hline]

/-- C7 amended, at a concrete input: A logs in with the password and is
issued the token of sixteen zero bytes, then sends SUBSCRIBE OBSERVER; B, a
fresh connection, then presents the token. -/
theorem token_reentry_witness :
    step (fun salt pass => salt ++ pass)
      { clients := [⟨4, ⟨10, 0, 0, 1, 40000⟩, role_t.ROLE_OBSERVER, true,
                      "00000000000000000000000000000000".toList⟩,
                    new_client 5 ⟨10, 0, 0, 2, 40001⟩],
        cred_present := true, admin_cred := ⟨"admin".toList, "s".toList, "spw".toList⟩,
        vehicle := ⟨0, 100, 0⟩ }
      (Event.line 1 ("AUTH token=".toList ++ "00000000000000000000000000000000".toList) []) =
      ({ clients := [⟨4, ⟨10, 0, 0, 1, 40000⟩, role_t.ROLE_OBSERVER, true,
                      "00000000000000000000000000000000".toList⟩,
                    ⟨5, ⟨10, 0, 0, 2, 40001⟩, role_t.ROLE_ADMIN, true,
                      "00000000000000000000000000000000".toList⟩],
         cred_present := true, admin_cred := ⟨"admin".toList, "s".toList, "spw".toList⟩,
         vehicle := ⟨0, 100, 0⟩ },
        [(⟨5, ⟨10, 0, 0, 2, 40001⟩, role_t.ROLE_ADMIN, true,
            "00000000000000000000000000000000".toList⟩,
          "AUTH-OK token=".toList ++ "00000000000000000000000000000000".toList ++ ['\n'])]) :=
  token_reentry (fun salt pass => salt ++ pass)
    { clients := [new_client 4 ⟨10, 0, 0, 1, 40000⟩, new_client 5 ⟨10, 0, 0, 2, 40001⟩],
      cred_present := true, admin_cred := ⟨"admin".toList, "s".toList, "spw".toList⟩,
      vehicle := ⟨0, 100, 0⟩ }
    (new_client 4 ⟨10, 0, 0, 1, 40000⟩) "AUTH admin pw".toList []
    "00000000000000000000000000000000".toList
    [({ clients := [⟨4, ⟨10, 0, 0, 1, 40000⟩, role_t.ROLE_ADMIN, true,
                      "00000000000000000000000000000000".toList⟩,
                    new_client 5 ⟨10, 0, 0, 2, 40001⟩],
        cred_present := true, admin_cred := ⟨"admin".toList, "s".toList, "spw".toList⟩,
        vehicle := ⟨0, 100, 0⟩ }, "SUBSCRIBE OBSERVER".toList, [])]
    { clients := [⟨4, ⟨10, 0, 0, 1, 40000⟩, role_t.ROLE_OBSERVER, true,
                    "00000000000000000000000000000000".toList⟩,
                  new_client 5 ⟨10, 0, 0, 2, 40001⟩],
      cred_present := true, admin_cred := ⟨"admin".toList, "s".toList, "spw".toList⟩,
      vehicle := ⟨0, 100, 0⟩ }
    1 (new_client 5 ⟨10, 0, 0, 2, 40001⟩) []
    rfl ⟨rfl, by decide⟩ (by decide) (List.mem_cons_self _ _) rfl

/-- C7 as stated fails when A logs in a second time.  Two connections are
accepted, B (descriptor 5) and A (descriptor 4).  A logs in with the password
and is issued the token of sixteen zero bytes; A logs in again and is issued
another token, which replaces the first in its record (lines 445-447).  A is
still registered, yet B's `AUTH token=` with the first token is answered
`AUTH-ERR reason=invalid_token` and B stays unauthenticated with role NONE. -/
theorem relogin_retires_token :
    run_out (fun salt pass => salt ++ pass)
      (init_globals true ⟨"admin".toList, "s".toList, "spw".toList⟩)
      [Event.accept 5 ⟨10, 0, 0, 2, 40001⟩, Event.accept 4 ⟨10, 0, 0, 1, 40000⟩,
       Event.line 0 "AUTH admin pw".toList [],
       Event.line 0 "AUTH admin pw".toList [1],
       Event.line 1
         ("AUTH token=".toList ++ "00000000000000000000000000000000".toList) []] =
      ({ clients := [⟨4, ⟨10, 0, 0, 1, 40000⟩, role_t.ROLE_ADMIN, true,
                      "01000000000000000000000000000000".toList⟩,
                    new_client 5 ⟨10, 0, 0, 2, 40001⟩],
         cred_present := true, admin_cred := ⟨"admin".toList, "s".toList, "spw".toList⟩,
         vehicle := ⟨0, 100, 0⟩ },
        [(⟨4, ⟨10, 0, 0, 1, 40000⟩, role_t.ROLE_ADMIN, true,
            "00000000000000000000000000000000".toList⟩,
          "AUTH-OK token=00000000000000000000000000000000\n".toList),
         (⟨4, ⟨10, 0, 0, 1, 40000⟩, role_t.ROLE_ADMIN, true,
            "01000000000000000000000000000000".toList⟩,
          "AUTH-OK token=01000000000000000000000000000000\n".toList),
         (new_client 5 ⟨10, 0, 0, 2, 40001⟩,
          "AUTH-ERR reason=invalid_token\n".toList)]) := by
  rfl

/-! ## LIST_USERS -/

set_option maxRecDepth 100000 in
/-- C8, the defect: with eighty registered sessions the answer to the
administrator's LIST_USERS announces `USERS 80`, is cut by `send_line` after
2045 bytes, and so carries only 75 complete session lines followed by the
fragment `10.0.0.2:500`. -/
theorem list_users_truncated (sha : CStr → CStr → CStr) :
    crowded_registry.length = 80 ∧
    (handle_line sha ⟨crowded_registry, false, ⟨[], [], []⟩, ⟨0, 100, 0⟩⟩
      ⟨4, ⟨10, 0, 0, 1, 40000⟩, role_t.ROLE_ADMIN, true, []⟩ "LIST_USERS".toList []).reply =
      send_line (build_users_list crowded_registry 8192) ∧
    (send_line (build_users_list crowded_registry 8192)).take 9 = "USERS 80\n".toList ∧
    (send_line (build_users_list crowded_registry 8192)).length = 2046 ∧
    ((send_line (build_users_list crowded_registry 8192)).filter (fun ch => ch = '\n')).length
      = 77 ∧
    (send_line (build_users_list crowded_registry 8192)).drop 2033 =
      "10.0.0.2:500\n".toList := by
  refine ⟨by decide, rfl, ?_⟩
  decide!

/-! ## Broadcast pass -/

/-- A broadcast pass in which every failing send returns `n <= 0`: the
registry afterwards is the registry before, in the same order, without
exactly the authenticated sessions whose send failed, and the telemetry line
is written, in registry order, to exactly the authenticated sessions whose
send succeeded. -/
theorem broadcast_when_sends_return (g : Globals) (ts : CStr)
    (send_fails : client_t → Bool) :
    (broadcast_telemetry g ts send_fails).1 =
      g.clients.filter (fun it => !(it.authenticated && send_fails it)) ∧
    (broadcast_telemetry g ts send_fails).2 =
      (g.clients.filter (fun it => it.authenticated && !send_fails it)).map
        (fun it => (it, telemetry_msg g.vehicle ts)) := by
  unfold broadcast_telemetry
  simp [broadcast_loop_eq]

/-- C9, the defect: a write that fails with SIGPIPE ends the pass and the
process.  The registry is `pre`, then the authenticated session `it`, then
`post`; the sends to the sessions of `pre` return, the send of line 270 to
`it` raises SIGPIPE (flags 0, default action).  Then the process is killed
inside the pass: the line has gone to the authenticated sessions of `pre`
whose send succeeded and to no session of `post`, and `it` is still linked in
the registry, with all of `post` behind it. -/
theorem sigpipe_ends_broadcast (g : Globals) (ts : CStr) (send : client_t → send_result)
    (pre post : List client_t) (it : client_t)
    (hreg : g.clients = pre ++ it :: post)
    (hpre : ∀ x ∈ pre, x.authenticated = true →
      send x = send_result.sent ∨ send x = send_result.failed)
    (hit : it.authenticated = true)
    (hsig : send it = send_result.sigpipe) :
    (broadcast_telemetry_sends g ts send).2 =
      ⟨pre.filter (fun x => !(x.authenticated && decide (send x = send_result.failed)))
          ++ it :: post,
        pre.filter (fun x => x.authenticated && decide (send x = send_result.sent)),
        true⟩ := by
  unfold broadcast_telemetry_sends
  rw [hreg, broadcast_loop_sigpipe send it post hit hsig pre [] hpre]
  simp

/-- C9, the defect at a concrete input: three authenticated sessions with
descriptors 4, 5 and 6; the peer of 5 has reset its connection and the send
to it raises SIGPIPE.  The process is killed after the write to 4: session 6,
whose write would have succeeded, gets nothing, and 5 is still registered.
Had the same failure returned `n <= 0`, the pass would have removed 5 and
written to 4 and 6. -/
theorem sigpipe_ends_broadcast_witness :
    (broadcast_telemetry_sends
      ⟨[⟨4, ⟨10, 0, 0, 1, 40000⟩, role_t.ROLE_ADMIN, true, []⟩,
        ⟨5, ⟨10, 0, 0, 2, 40001⟩, role_t.ROLE_OBSERVER, true, []⟩,
        ⟨6, ⟨10, 0, 0, 3, 40002⟩, role_t.ROLE_OBSERVER, true, []⟩],
        false, ⟨[], [], []⟩, ⟨0, 100, 0⟩⟩ "t".toList
      (fun x => if x.fd = 5 then send_result.sigpipe else send_result.sent)).2 =
      ⟨[⟨4, ⟨10, 0, 0, 1, 40000⟩, role_t.ROLE_ADMIN, true, []⟩,
        ⟨5, ⟨10, 0, 0, 2, 40001⟩, role_t.ROLE_OBSERVER, true, []⟩,
        ⟨6, ⟨10, 0, 0, 3, 40002⟩, role_t.ROLE_OBSERVER, true, []⟩],
       [⟨4, ⟨10, 0, 0, 1, 40000⟩, role_t.ROLE_ADMIN, true, []⟩], true⟩ ∧
    (broadcast_telemetry
      ⟨[⟨4, ⟨10, 0, 0, 1, 40000⟩, role_t.ROLE_ADMIN, true, []⟩,
        ⟨5, ⟨10, 0, 0, 2, 40001⟩, role_t.ROLE_OBSERVER, true, []⟩,
        ⟨6, ⟨10, 0, 0, 3, 40002⟩, role_t.ROLE_OBSERVER, true, []⟩],
        false, ⟨[], [], []⟩, ⟨0, 100, 0⟩⟩ "t".toList
      (fun x => decide (x.fd = 5))).1 =
      [⟨4, ⟨10, 0, 0, 1, 40000⟩, role_t.ROLE_ADMIN, true, []⟩,
       ⟨6, ⟨10, 0, 0, 3, 40002⟩, role_t.ROLE_OBSERVER, true, []⟩] ∧
    (broadcast_telemetry
      ⟨[⟨4, ⟨10, 0, 0, 1, 40000⟩, role_t.ROLE_ADMIN, true, []⟩,
        ⟨5, ⟨10, 0, 0, 2, 40001⟩, role_t.ROLE_OBSERVER, true, []⟩,
        ⟨6, ⟨10, 0, 0, 3, 40002⟩, role_t.ROLE_OBSERVER, true, []⟩],
        false, ⟨[], [], []⟩, ⟨0, 100, 0⟩⟩ "t".toList
      (fun x => decide (x.fd = 5))).2.map (fun w => w.1.fd) = [4, 6] :=
  ⟨sigpipe_ends_broadcast
      ⟨[⟨4, ⟨10, 0, 0, 1, 40000⟩, role_t.ROLE_ADMIN, true, []⟩,
        ⟨5, ⟨10, 0, 0, 2, 40001⟩, role_t.ROLE_OBSERVER, true, []⟩,
        ⟨6, ⟨10, 0, 0, 3, 40002⟩, role_t.ROLE_OBSERVER, true, []⟩],
        false, ⟨[], [], []⟩, ⟨0, 100, 0⟩⟩ "t".toList
      (fun x => if x.fd = 5 then send_result.sigpipe else send_result.sent)
      [⟨4, ⟨10, 0, 0, 1, 40000⟩, role_t.ROLE_ADMIN, true, []⟩]
      [⟨6, ⟨10, 0, 0, 3, 40002⟩, role_t.ROLE_OBSERVER, true, []⟩]
      ⟨5, ⟨10, 0, 0, 2, 40001⟩, role_t.ROLE_OBSERVER, true, []⟩
      rfl (by decide) rfl rfl,
    by decide, by decide⟩

/-! ## Sessions that never authenticate -/

/-- C10: a session whose lines are never answered AUTH-OK stays
unauthenticated, whatever the other threads do between its lines and
however many SUBSCRIBE lines it sends; and a broadcast pass writes only to
session records whose authenticated flag is set, so it writes nothing to
such a session. -/
theorem unauthenticated_gets_no_telemetry (sha : CStr → CStr → CStr) (c : client_t)
    (calls : List (Globals × CStr × List Nat))
    (hc : c.authenticated = false)
    (hno : ∀ reply ∈ (session_run sha c calls).2, ¬ "AUTH-OK".toList <+: reply) :
    (session_run sha c calls).1.authenticated = false ∧
    ∀ (g : Globals) (ts : CStr) (send_fails : client_t → Bool),
      (∀ w ∈ (broadcast_telemetry g ts send_fails).2, w.1.authenticated = true) ∧
      ∀ w ∈ (broadcast_telemetry g ts send_fails).2, w.1 ≠ (session_run sha c calls).1 := by
  have hflag : (session_run sha c calls).1.authenticated = false := by
    induction calls generalizing c with
    | nil => exact hc
    | cons call calls ih =>
        obtain ⟨g, line, r⟩ := call
        simp only [session_run] at hno ⊢
        have h1 := handle_line_keeps_unauthenticated sha g c line r hc
          (hno _ (List.mem_cons_self _ _))
        exact ih _ h1 (fun reply hr => hno reply (List.mem_cons_of_mem _ hr))
  have hw : ∀ (g : Globals) (ts : CStr) (send_fails : client_t → Bool),
      ∀ w ∈ (broadcast_telemetry g ts send_fails).2, w.1.authenticated = true := by
    intro g ts send_fails w hmem
    unfold broadcast_telemetry at hmem
    simp only [broadcast_loop_eq, List.nil_append, List.mem_map, List.mem_filter] at hmem
    obtain ⟨it, ⟨_, hit⟩, rfl⟩ := hmem
    simp only [Bool.and_eq_true] at hit
    exact hit.1
  refine ⟨hflag, fun g ts send_fails => ⟨hw g ts send_fails, ?_⟩⟩
  intro w hmem heq
  have := hw g ts send_fails w hmem
  rw [heq, hflag] at this
  exact absurd this (by decide)

/-- C10 at a concrete input: a fresh session sends SUBSCRIBE OBSERVER,
SUBSCRIBE ADMIN and a command. -/
theorem unauthenticated_gets_no_telemetry_witness :
    (session_run (fun salt pass => salt ++ pass) (new_client 4 ⟨10, 0, 0, 1, 40000⟩)
      [(init_globals false ⟨[], [], []⟩, "SUBSCRIBE OBSERVER".toList, []),
       (init_globals false ⟨[], [], []⟩, "SUBSCRIBE ADMIN".toList, []),
       (init_globals false ⟨[], [], []⟩, "CMD SPEED UP".toList, [])]).1.authenticated = false :=
  (unauthenticated_gets_no_telemetry (fun salt pass => salt ++ pass)
    (new_client 4 ⟨10, 0, 0, 1, 40000⟩)
    [(init_globals false ⟨[], [], []⟩, "SUBSCRIBE OBSERVER".toList, []),
     (init_globals false ⟨[], [], []⟩, "SUBSCRIBE ADMIN".toList, []),
     (init_globals false ⟨[], [], []⟩, "CMD SPEED UP".toList, [])]
    rfl (by decide)).1

/-! ## More on `strtok` -/

/-- A non-empty text without delimiters is a single token. -/
theorem strtok_whole (s delim : CStr) (hne : s ≠ []) (h : ∀ ch ∈ s, ch ∉ delim) :
    strtok s delim = some (s, []) := by
  have hdrop : s.dropWhile (fun ch => decide (ch ∈ delim)) = s := by
    cases s with
    | nil => rfl
    | cons x xs =>
        have hx : decide (x ∈ delim) = false := by
          simpa using h x (List.mem_cons_self _ _)
        rw [List.dropWhile_cons, hx]
        rfl
  have htake : s.takeWhile (fun ch => !decide (ch ∈ delim)) = s := by
    rw [List.takeWhile_eq_self_iff]
    intro x hx
    simpa using h x hx
  have hdrop2 : s.dropWhile (fun ch => !decide (ch ∈ delim)) = [] := by
    rw [List.dropWhile_eq_nil_iff]
    intro x hx
    simpa using h x hx
  unfold strtok
  simp only [hdrop, if_neg hne, htake, hdrop2, List.drop_nil]

/-- A non-empty text without delimiters, followed by one delimiter and more
text, is cut at that delimiter. -/
theorem strtok_split (a b delim : CStr) (d : Char) (hne : a ≠ [])
    (ha : ∀ ch ∈ a, ch ∉ delim) (hd : d ∈ delim) :
    strtok (a ++ d :: b) delim = some (a, b) := by
  have hne2 : a ++ d :: b ≠ [] := by simp
  have hdrop : (a ++ d :: b).dropWhile (fun ch => decide (ch ∈ delim)) = a ++ d :: b := by
    cases a with
    | nil => exact absurd rfl hne
    | cons x xs =>
        have hx : decide (x ∈ delim) = false := by
          simpa using ha x (List.mem_cons_self _ _)
        rw [List.cons_append, List.dropWhile_cons, hx]
        rfl
  have hp : ∀ x ∈ a, (fun ch => !decide (ch ∈ delim)) x = true := by
    intro x hx
    simpa using ha x hx
  have hq : (fun ch => !decide (ch ∈ delim)) d = false := by
    simpa using hd
  have htake : (a ++ d :: b).takeWhile (fun ch => !decide (ch ∈ delim)) = a := by
    rw [List.takeWhile_append_of_pos hp, List.takeWhile_cons_of_neg (by simpa using hd)]
    simp
  have hdrop2 : (a ++ d :: b).dropWhile (fun ch => !decide (ch ∈ delim)) = d :: b := by
    rw [List.dropWhile_append_of_pos hp, List.dropWhile_cons_of_neg (by simpa using hd)]
  unfold strtok
  simp only [hdrop, if_neg hne2, htake, hdrop2, List.drop_succ_cons, List.drop_zero]

/-! ## Auxiliary facts: the battery update -/

theorem broadcaster_update_moving (v : vehicle_t) (h : 0 < v.speed) :
    broadcaster_update v = { v with battery := max 0 (v.battery - 1) } := by
  have hb : (if v.battery - 1 < 0 then (0 : Int) else v.battery - 1) = max 0 (v.battery - 1) := by
    split_ifs with h1
    · rw [max_eq_left (by omega)]
    · rw [max_eq_right (by omega)]
  unfold broadcaster_update
  simp only [gt_iff_lt, h, if_true, hb]

theorem broadcaster_update_standing (v : vehicle_t) (h : v.speed = 0) (hb : 0 ≤ v.battery) :
    broadcaster_update v = v := by
  obtain ⟨s, b, d⟩ := v
  simp only at h hb
  subst h
  have hn : ¬ (0 : ℚ) > 0 := lt_irrefl _
  have hb2 : ¬ b < 0 := by omega
  unfold broadcaster_update
  simp only [hn, if_false, and_true, sub_zero, ite_self, hb2]

/-! ## Session states -/

/-- What a `handle_line` call can do to flag and role: a successful AUTH
sets the flag and role ADMIN; any other call leaves the flag as it was and
leaves the role as it was or sets it to ADMIN or OBSERVER. -/
theorem handle_line_role (sha : CStr → CStr → CStr) (g : Globals) (c : client_t)
    (line : CStr) (r : List Nat) :
    ((handle_line sha g c line r).c.authenticated = true ∧
      (handle_line sha g c line r).c.role = role_t.ROLE_ADMIN) ∨
    ((handle_line sha g c line r).c.authenticated = c.authenticated ∧
      ((handle_line sha g c line r).c.role = c.role ∨
        (handle_line sha g c line r).c.role = role_t.ROLE_ADMIN ∨
        (handle_line sha g c line r).c.role = role_t.ROLE_OBSERVER)) := by
  unfold handle_line
  dsimp only
  split
  · right; exact ⟨rfl, Or.inl rfl⟩
  · split
    · split
      · right; exact ⟨rfl, Or.inl rfl⟩
      · split
        · split
          · left; exact ⟨rfl, rfl⟩
          · right; exact ⟨rfl, Or.inl rfl⟩
        · split
          · right; exact ⟨rfl, Or.inl rfl⟩
          · split
            · right; exact ⟨rfl, Or.inl rfl⟩
            · split
              · right; exact ⟨rfl, Or.inl rfl⟩
              · split
                · right; exact ⟨rfl, Or.inl rfl⟩
                · split
                  · left; exact ⟨rfl, rfl⟩
                  · right; exact ⟨rfl, Or.inl rfl⟩
    · split
      · split
        · right; exact ⟨rfl, Or.inl rfl⟩
        · split
          · right; exact ⟨rfl, Or.inr (Or.inl rfl)⟩
          · right; exact ⟨rfl, Or.inr (Or.inr rfl)⟩
      · split
        · split
          · right; exact ⟨rfl, Or.inl rfl⟩
          · right; exact ⟨rfl, Or.inl rfl⟩
        · split
          · right; exact ⟨rfl, Or.inl rfl⟩
          · split
            · right; exact ⟨rfl, Or.inl rfl⟩
            · right; exact ⟨rfl, Or.inl rfl⟩

theorem session_run_role (sha : CStr → CStr → CStr) :
    ∀ (calls : List (Globals × CStr × List Nat)) (c : client_t),
      (c.authenticated = true → c.role ≠ role_t.ROLE_NONE) →
      ((session_run sha c calls).1.authenticated = true →
        (session_run sha c calls).1.role ≠ role_t.ROLE_NONE) := by
  intro calls
  induction calls with
  | nil => intro c h; exact h
  | cons call calls ih =>
      intro c h
      obtain ⟨g, line, r⟩ := call
      simp only [session_run]
      apply ih
      intro ha
      rcases handle_line_role sha g c line r with ⟨_, hr⟩ | ⟨hsame, hr | hr | hr⟩
      · rw [hr]; decide
      · rw [hr]; exact h (by rw [← hsame]; exact ha)
      · rw [hr]; decide
      · rw [hr]; decide

/-- For every digest function, with the credential record holding the
digest of salt and password: a session that logs in with the password and
then sends `SUBSCRIBE OBSERVER` is authenticated with role OBSERVER, which
is none of the three documented states. -/
theorem authenticated_observer_any_digest :
    ∀ sha : CStr → CStr → CStr,
      (session_run sha (new_client 4 ⟨10, 0, 0, 1, 40000⟩)
        [(⟨[new_client 4 ⟨10, 0, 0, 1, 40000⟩], true,
            ⟨"admin".toList, "s".toList, sha "s".toList "pw".toList⟩, ⟨0, 100, 0⟩⟩,
          "AUTH admin pw".toList, []),
         (⟨[⟨4, ⟨10, 0, 0, 1, 40000⟩, role_t.ROLE_ADMIN, true, gen_token []⟩], true,
            ⟨"admin".toList, "s".toList, sha "s".toList "pw".toList⟩, ⟨0, 100, 0⟩⟩,
          "SUBSCRIBE OBSERVER".toList, [])]).1 =
        ⟨4, ⟨10, 0, 0, 1, 40000⟩, role_t.ROLE_OBSERVER, true, gen_token []⟩ ∧
      ¬ documented_state (session_run sha (new_client 4 ⟨10, 0, 0, 1, 40000⟩)
        [(⟨[new_client 4 ⟨10, 0, 0, 1, 40000⟩], true,
            ⟨"admin".toList, "s".toList, sha "s".toList "pw".toList⟩, ⟨0, 100, 0⟩⟩,
          "AUTH admin pw".toList, []),
         (⟨[⟨4, ⟨10, 0, 0, 1, 40000⟩, role_t.ROLE_ADMIN, true, gen_token []⟩], true,
            ⟨"admin".toList, "s".toList, sha "s".toList "pw".toList⟩, ⟨0, 100, 0⟩⟩,
          "SUBSCRIBE OBSERVER".toList, [])]).1 := by
  intro sha
  have h1 : handle_line sha
      ⟨[new_client 4 ⟨10, 0, 0, 1, 40000⟩], true,
        ⟨"admin".toList, "s".toList, sha "s".toList "pw".toList⟩, ⟨0, 100, 0⟩⟩
      (new_client 4 ⟨10, 0, 0, 1, 40000⟩) "AUTH admin pw".toList [] =
      ⟨⟨4, ⟨10, 0, 0, 1, 40000⟩, role_t.ROLE_ADMIN, true, gen_token []⟩, ⟨0, 100, 0⟩,
        send_line ("AUTH-OK token=".toList ++ gen_token []), false⟩ := by
    have hs : strtok (strncpy "AUTH admin pw".toList (MAXLINE - 1)) " \t\r\n".toList =
        some ("AUTH".toList, "admin pw".toList) := rfl
    have hs2 : strtok "admin pw".toList "\r\n".toList = some ("admin pw".toList, []) := rfl
    have hs3 : strtok "admin pw".toList " ".toList = some ("admin".toList, "pw".toList) := rfl
    have hs4 : strtok "pw".toList " ".toList = some ("pw".toList, []) := rfl
    unfold handle_line
    simp only [hs, hs2, hs3, hs4, if_true]
    rw [if_neg (by decide)]
    simp [new_client]
  have h2 : handle_line sha
      ⟨[⟨4, ⟨10, 0, 0, 1, 40000⟩, role_t.ROLE_ADMIN, true, gen_token []⟩], true,
        ⟨"admin".toList, "s".toList, sha "s".toList "pw".toList⟩, ⟨0, 100, 0⟩⟩
      ⟨4, ⟨10, 0, 0, 1, 40000⟩, role_t.ROLE_ADMIN, true, gen_token []⟩
      "SUBSCRIBE OBSERVER".toList [] =
      ⟨⟨4, ⟨10, 0, 0, 1, 40000⟩, role_t.ROLE_OBSERVER, true, gen_token []⟩, ⟨0, 100, 0⟩,
        send_line "SUBSCRIBE-OK role=OBSERVER".toList, false⟩ := rfl
  have hrun : (session_run sha (new_client 4 ⟨10, 0, 0, 1, 40000⟩)
        [(⟨[new_client 4 ⟨10, 0, 0, 1, 40000⟩], true,
            ⟨"admin".toList, "s".toList, sha "s".toList "pw".toList⟩, ⟨0, 100, 0⟩⟩,
          "AUTH admin pw".toList, []),
         (⟨[⟨4, ⟨10, 0, 0, 1, 40000⟩, role_t.ROLE_ADMIN, true, gen_token []⟩], true,
            ⟨"admin".toList, "s".toList, sha "s".toList "pw".toList⟩, ⟨0, 100, 0⟩⟩,
          "SUBSCRIBE OBSERVER".toList, [])]).1 =
        ⟨4, ⟨10, 0, 0, 1, 40000⟩, role_t.ROLE_OBSERVER, true, gen_token []⟩ := by
    simp only [session_run, h1, h2]
  rw [hrun]
  refine ⟨rfl, ?_⟩
  unfold documented_state
  simp

/-- C11 as stated fails: a session that logs in with the password and then
sends `SUBSCRIBE OBSERVER` is authenticated with role OBSERVER, which is
none of the three documented states.  The digest function of this run is a
stand-in (salt followed by password); `authenticated_observer_any_digest`
shows the same for every digest function. -/
theorem authenticated_observer_reachable :
    (session_run (fun salt pass => salt ++ pass) (new_client 4 ⟨10, 0, 0, 1, 40000⟩)
      [(⟨[new_client 4 ⟨10, 0, 0, 1, 40000⟩], true,
          ⟨"admin".toList, "s".toList, "spw".toList⟩, ⟨0, 100, 0⟩⟩,
        "AUTH admin pw".toList, []),
       (⟨[⟨4, ⟨10, 0, 0, 1, 40000⟩, role_t.ROLE_ADMIN, true, gen_token []⟩], true,
          ⟨"admin".toList, "s".toList, "spw".toList⟩, ⟨0, 100, 0⟩⟩,
        "SUBSCRIBE OBSERVER".toList, [])]).1 =
      ⟨4, ⟨10, 0, 0, 1, 40000⟩, role_t.ROLE_OBSERVER, true, gen_token []⟩ ∧
    ¬ documented_state (session_run (fun salt pass => salt ++ pass)
      (new_client 4 ⟨10, 0, 0, 1, 40000⟩)
      [(⟨[new_client 4 ⟨10, 0, 0, 1, 40000⟩], true,
          ⟨"admin".toList, "s".toList, "spw".toList⟩, ⟨0, 100, 0⟩⟩,
        "AUTH admin pw".toList, []),
       (⟨[⟨4, ⟨10, 0, 0, 1, 40000⟩, role_t.ROLE_ADMIN, true, gen_token []⟩], true,
          ⟨"admin".toList, "s".toList, "spw".toList⟩, ⟨0, 100, 0⟩⟩,
        "SUBSCRIBE OBSERVER".toList, [])]).1 :=
  authenticated_observer_any_digest (fun salt pass => salt ++ pass)

/-- C11 amended: every state a session reaches from a freshly accepted
connection by any sequence of handled lines, whatever the other threads do
in between, is one of the three documented states or is authenticated with
role OBSERVER; an authenticated session never has role NONE. -/
theorem session_states (sha : CStr → CStr → CStr) (connfd : Int) (cliaddr : sockaddr_in)
    (calls : List (Globals × CStr × List Nat)) :
    (documented_state (session_run sha (new_client connfd cliaddr) calls).1 ∨
      ((session_run sha (new_client connfd cliaddr) calls).1.authenticated = true ∧
        (session_run sha (new_client connfd cliaddr) calls).1.role = role_t.ROLE_OBSERVER)) ∧
    ((session_run sha (new_client connfd cliaddr) calls).1.authenticated = true →
      (session_run sha (new_client connfd cliaddr) calls).1.role ≠ role_t.ROLE_NONE) := by
  have hinv := session_run_role sha calls (new_client connfd cliaddr)
    (fun h => by simp [new_client] at h)
  refine ⟨?_, hinv⟩
  generalize (session_run sha (new_client connfd cliaddr) calls).1 = c at hinv
  unfold documented_state
  cases ha : c.authenticated
  · cases hr : c.role
    · left; left; exact ⟨rfl, rfl⟩
    · left; right; left; exact ⟨Or.inl rfl, rfl⟩
    · left; right; left; exact ⟨Or.inr rfl, rfl⟩
  · cases hr : c.role
    · exact absurd hr (hinv ha)
    · right; exact ⟨rfl, rfl⟩
    · left; right; right; exact ⟨rfl, rfl⟩

/-! ## End-to-end scenario -/

/-- A line whose first token is `CMD` is handed to `process_cmd`. -/
theorem handle_line_cmd (sha : CStr → CStr → CStr) (g : Globals) (c : client_t)
    (line : CStr) (r : List Nat) (after : CStr)
    (h : strtok (strncpy line (MAXLINE - 1)) " \t\r\n".toList = some ("CMD".toList, after)) :
    handle_line sha g c line r =
      ⟨c, (process_cmd c g.vehicle line).1, (process_cmd c g.vehicle line).2, false⟩ := by
  unfold handle_line
  simp only [h]
  rw [if_neg (by decide), if_neg (by decide), if_neg (by decide), if_pos trivial]

theorem step_line_head (sha : CStr → CStr → CStr) (g : Globals) (c : client_t)
    (rest : List client_t) (text : CStr) (r : List Nat) (hc : g.clients = c :: rest) :
    step sha g (Event.line 0 text r) =
      ({ g with clients := (handle_line sha g c text r).c :: rest,
                vehicle := (handle_line sha g c text r).vehicle },
        [((handle_line sha g c text r).c, (handle_line sha g c text r).reply)]) := by
  show (match g.clients.get? 0 with
    | none => (g, [])
    | some c =>
        let h := handle_line sha g c text r
        (({ g with clients := g.clients.set 0 h.c, vehicle := h.vehicle } : Globals),
          [(h.c, h.reply)])) = _
  rw [hc]
  rfl

theorem step_speed_up (sha : CStr → CStr → CStr) (g : Globals) (c : client_t)
    (rest : List client_t) (r : List Nat) (hc : g.clients = c :: rest)
    (hauth : c.authenticated = true) (hrole : c.role = role_t.ROLE_ADMIN)
    (hb : 10 ≤ g.vehicle.battery) (hs : g.vehicle.speed < 30) :
    step sha g (Event.line 0 "CMD SPEED UP".toList r) =
      ({ g with vehicle := { g.vehicle with speed := g.vehicle.speed + 5 / 2 } },
        [(c, "CMD-ACK action=SPEED_UP status=OK\n".toList)]) := by
  rw [step_line_head sha g c rest _ r hc,
    handle_line_cmd sha g c "CMD SPEED UP".toList r "SPEED UP".toList rfl,
    speed_up_admin c g.vehicle hauth hrole hb, if_neg (not_le.mpr hs)]
  simp only [hc]

theorem step_turn_right (sha : CStr → CStr → CStr) (g : Globals) (c : client_t)
    (rest : List client_t) (r : List Nat) (hc : g.clients = c :: rest)
    (hauth : c.authenticated = true) (hrole : c.role = role_t.ROLE_ADMIN)
    (hb : 10 ≤ g.vehicle.battery) :
    step sha g (Event.line 0 "CMD TURN RIGHT".toList r) =
      ({ g with vehicle :=
          { g.vehicle with direction_deg := Int.tmod (g.vehicle.direction_deg + 90) 360 } },
        [(c, "CMD-ACK action=TURN_RIGHT status=OK\n".toList)]) := by
  rw [step_line_head sha g c rest _ r hc,
    handle_line_cmd sha g c "CMD TURN RIGHT".toList r "TURN RIGHT".toList rfl,
    turn_right_admin c g.vehicle hauth hrole hb]
  simp only [hc]

/-- A run of `n` SPEED UP lines of an authenticated administrator at the head
of the registry that stays within the speed limit: `n` acknowledgements, and
the speed grows by `n` times 2.5. -/
theorem run_out_speed_ups (sha : CStr → CStr → CStr) (c : client_t) (rest : List client_t)
    (hauth : c.authenticated = true) (hrole : c.role = role_t.ROLE_ADMIN) :
    ∀ (n : Nat) (g : Globals), g.clients = c :: rest → 10 ≤ g.vehicle.battery →
      g.vehicle.speed + (n : ℚ) * (5 / 2) ≤ 30 →
      run_out sha g (List.replicate n (Event.line 0 "CMD SPEED UP".toList [])) =
        ({ g with vehicle := { g.vehicle with speed := g.vehicle.speed + (n : ℚ) * (5 / 2) } },
          List.replicate n (c, "CMD-ACK action=SPEED_UP status=OK\n".toList)) := by
  intro n
  induction n with
  | zero =>
      intro g _ _ _
      simp [run_out]
  | succ n ih =>
      intro g hc hb hs
      have hn : (0 : ℚ) ≤ (n : ℚ) := Nat.cast_nonneg n
      push_cast at hs
      have hlt : g.vehicle.speed < 30 := by linarith
      have ih1 := ih { g with vehicle := { g.vehicle with speed := g.vehicle.speed + 5 / 2 } }
        hc hb (by show g.vehicle.speed + 5 / 2 + (n : ℚ) * (5 / 2) ≤ 30; linarith)
      simp only [List.replicate_succ, run_out]
      rw [step_speed_up sha g c rest [] hc hauth hrole hb hlt]
      dsimp only
      rw [ih1]
      simp only [List.singleton_append, Prod.mk.injEq, and_true]
      have harith : g.vehicle.speed + 5 / 2 + (n : ℚ) * (5 / 2) =
          g.vehicle.speed + ((n + 1 : Nat) : ℚ) * (5 / 2) := by
        push_cast
        ring
      rw [harith]

/-- After `n` ticks of the broadcaster on a moving vehicle with at least `n`
percent of battery, the battery is `n` lower and nothing else in the vehicle
has changed. -/
theorem run_ticks (sha : CStr → CStr → CStr) (ts : CStr) (send_fails : client_t → Bool) :
    ∀ (n : Nat) (g : Globals), 0 < g.vehicle.speed → (n : Int) ≤ g.vehicle.battery →
      (run sha g (List.replicate n (Event.tick ts send_fails))).vehicle =
        { g.vehicle with battery := g.vehicle.battery - n } := by
  intro n
  induction n with
  | zero =>
      intro g _ _
      simp [run]
  | succ n ih =>
      intro g hs hb
      push_cast at hb
      have hstep : (step sha g (Event.tick ts send_fails)).1.vehicle =
          { g.vehicle with battery := g.vehicle.battery - 1 } := by
        show broadcaster_update g.vehicle = _
        rw [broadcaster_update_moving _ hs, max_eq_right (by omega)]
      have hrun : run sha g (List.replicate (n + 1) (Event.tick ts send_fails)) =
          run sha (step sha g (Event.tick ts send_fails)).1
            (List.replicate n (Event.tick ts send_fails)) := rfl
      rw [hrun, ih _ (by rw [hstep]; exact hs) (by rw [hstep]; show (n : Int) ≤ _ - 1; omega),
        hstep]
      simp only [vehicle_t.mk.injEq, true_and, and_true]
      push_cast
      omega

theorem scenario_login (sha : CStr → CStr → CStr) (r : List Nat) :
    run_out sha (init_globals true (scenario_cred sha))
        [Event.accept 4 ⟨10, 0, 0, 1, 40000⟩, Event.line 0 "AUTH admin pw".toList r] =
      (scenario_globals sha r ⟨0, 100, 0⟩,
        [(scenario_admin r, "AUTH-OK token=".toList ++ gen_token r ++ ['\n'])]) := by
  have h1 : handle_line sha
      ⟨[new_client 4 ⟨10, 0, 0, 1, 40000⟩], true, scenario_cred sha, ⟨0, 100, 0⟩⟩
      (new_client 4 ⟨10, 0, 0, 1, 40000⟩) "AUTH admin pw".toList r =
      ⟨scenario_admin r, ⟨0, 100, 0⟩, send_line ("AUTH-OK token=".toList ++ gen_token r),
        false⟩ := by
    have hs : strtok (strncpy "AUTH admin pw".toList (MAXLINE - 1)) " \t\r\n".toList =
        some ("AUTH".toList, "admin pw".toList) := rfl
    have hs2 : strtok "admin pw".toList "\r\n".toList = some ("admin pw".toList, []) := rfl
    have hs3 : strtok "admin pw".toList " ".toList = some ("admin".toList, "pw".toList) := rfl
    have hs4 : strtok "pw".toList " ".toList = some ("pw".toList, []) := rfl
    unfold handle_line
    simp only [hs, hs2, hs3, hs4, if_true]
    rw [if_neg (by decide)]
    simp [new_client, scenario_cred, scenario_admin]
  simp only [run_out]
  have hacc : step sha (init_globals true (scenario_cred sha))
      (Event.accept 4 ⟨10, 0, 0, 1, 40000⟩) =
      (⟨[new_client 4 ⟨10, 0, 0, 1, 40000⟩], true, scenario_cred sha, ⟨0, 100, 0⟩⟩, []) := rfl
  rw [hacc]
  dsimp only
  rw [step_line_head sha _ (new_client 4 ⟨10, 0, 0, 1, 40000⟩) [] _ r rfl, h1,
    send_auth_ok _ (le_of_eq (gen_token_length r))]
  rfl

/-- C12: the scenario of the specification.  From the initial state (battery
100, speed 0, heading 0, label N) a connection is accepted and logs in with
the password; its five `CMD SPEED UP` lines get five acknowledgements and
leave speed 12.5; its two `CMD TURN RIGHT` lines leave heading 180, label S;
ten broadcaster ticks then leave battery 90. -/
theorem end_to_end_scenario (sha : CStr → CStr → CStr) (r : List Nat) (ts : CStr)
    (send_fails : client_t → Bool) :
    run_out sha (init_globals true (scenario_cred sha))
        [Event.accept 4 ⟨10, 0, 0, 1, 40000⟩, Event.line 0 "AUTH admin pw".toList r] =
      (scenario_globals sha r ⟨0, 100, 0⟩,
        [(scenario_admin r, "AUTH-OK token=".toList ++ gen_token r ++ ['\n'])]) ∧
    dir_of_deg 0 = "N".toList ∧
    run_out sha (scenario_globals sha r ⟨0, 100, 0⟩)
        (List.replicate 5 (Event.line 0 "CMD SPEED UP".toList [])) =
      (scenario_globals sha r ⟨25 / 2, 100, 0⟩,
        List.replicate 5 (scenario_admin r, "CMD-ACK action=SPEED_UP status=OK\n".toList)) ∧
    run_out sha (scenario_globals sha r ⟨25 / 2, 100, 0⟩)
        (List.replicate 2 (Event.line 0 "CMD TURN RIGHT".toList [])) =
      (scenario_globals sha r ⟨25 / 2, 100, 180⟩,
        List.replicate 2 (scenario_admin r, "CMD-ACK action=TURN_RIGHT status=OK\n".toList)) ∧
    dir_of_deg 180 = "S".toList ∧
    (run sha (scenario_globals sha r ⟨25 / 2, 100, 180⟩)
        (List.replicate 10 (Event.tick ts send_fails))).vehicle = ⟨25 / 2, 90, 180⟩ := by
  refine ⟨scenario_login sha r, by decide, ?_, ?_, by decide, ?_⟩
  · have hb : (10 : Int) ≤ (scenario_globals sha r ⟨0, 100, 0⟩).vehicle.battery := by
      show (10 : Int) ≤ 100
      decide
    have hs : (scenario_globals sha r ⟨0, 100, 0⟩).vehicle.speed + ((5 : Nat) : ℚ) * (5 / 2) ≤ 30 := by
      show (0 : ℚ) + ((5 : Nat) : ℚ) * (5 / 2) ≤ 30
      norm_num
    rw [run_out_speed_ups sha (scenario_admin r) [] rfl rfl 5 _ rfl hb hs]
    have hv : (0 : ℚ) + ((5 : Nat) : ℚ) * (5 / 2) = 25 / 2 := by norm_num
    show (({ scenario_globals sha r ⟨0, 100, 0⟩ with
        vehicle := ⟨(0 : ℚ) + ((5 : Nat) : ℚ) * (5 / 2), 100, 0⟩ } : Globals), _) = _
    rw [hv]
    rfl
  · have hb0 : (10 : Int) ≤ (scenario_globals sha r ⟨25 / 2, 100, 0⟩).vehicle.battery := by
      show (10 : Int) ≤ 100
      decide
    have hb1 : (10 : Int) ≤ (scenario_globals sha r ⟨25 / 2, 100, 90⟩).vehicle.battery := by
      show (10 : Int) ≤ 100
      decide
    have ht : step sha (scenario_globals sha r ⟨25 / 2, 100, 0⟩)
        (Event.line 0 "CMD TURN RIGHT".toList []) =
        (scenario_globals sha r ⟨25 / 2, 100, 90⟩,
          [(scenario_admin r, "CMD-ACK action=TURN_RIGHT status=OK\n".toList)]) := by
      rw [step_turn_right sha _ (scenario_admin r) [] [] rfl rfl rfl hb0]
      rfl
    have ht2 : step sha (scenario_globals sha r ⟨25 / 2, 100, 90⟩)
        (Event.line 0 "CMD TURN RIGHT".toList []) =
        (scenario_globals sha r ⟨25 / 2, 100, 180⟩,
          [(scenario_admin r, "CMD-ACK action=TURN_RIGHT status=OK\n".toList)]) := by
      rw [step_turn_right sha _ (scenario_admin r) [] [] rfl rfl rfl hb1]
      rfl
    simp only [List.replicate, run_out, ht, ht2]
    rfl
  · have hs : (0 : ℚ) < (scenario_globals sha r ⟨25 / 2, 100, 180⟩).vehicle.speed := by
      show (0 : ℚ) < 25 / 2
      norm_num
    have hb : ((10 : Nat) : Int) ≤ (scenario_globals sha r ⟨25 / 2, 100, 180⟩).vehicle.battery := by
      show ((10 : Nat) : Int) ≤ 100
      decide
    rw [run_ticks sha ts send_fails 10 _ hs hb]
    rfl

/-! ## Command handler and broadcaster interleaved -/

/-- With no other thread in between, the interleaved handler is
`process_cmd`. -/
theorem process_cmd_interleaved_nil (c : client_t) (v : vehicle_t) (cmdline : CStr) :
    process_cmd_interleaved c v cmdline [] = process_cmd c v cmdline := by
  unfold process_cmd_interleaved process_cmd
  cases parse_action cmdline <;> rfl

/-- Run without interruption, a command that finds the battery below 10
never changes the vehicle. -/
theorem process_cmd_low_battery_frame (c : client_t) (v : vehicle_t) (cmdline : CStr)
    (hb : v.battery < 10) : (process_cmd c v cmdline).1 = v := by
  unfold process_cmd
  split
  · rfl
  · unfold process_cmd_checked
    split
    · rfl
    · rfl

/-- C13, the defect: an authenticated administrator sends `CMD SPEED UP`
with speed 2.5 and battery 10.  The handler reads battery 10 and releases the
lock (lines 333-336); the broadcaster then runs lines 300-304 and the battery
is 9; the handler passes its checks on the value 10 it read, takes the lock
again and raises the speed to 5, answering CMD-ACK, although the battery is
9 at that moment.  The same command run without interruption on battery 9 is
refused with battery_low. -/
theorem stale_battery_check :
    mutate ⟨5 / 2, 10, 0⟩ Mutator.tick = ⟨5 / 2, 9, 0⟩ ∧
    process_cmd_interleaved ⟨4, ⟨10, 0, 0, 1, 40000⟩, role_t.ROLE_ADMIN, true, []⟩
        ⟨5 / 2, 10, 0⟩ "CMD SPEED UP".toList [Mutator.tick] =
      (⟨5, 9, 0⟩, "CMD-ACK action=SPEED_UP status=OK\n".toList) ∧
    process_cmd ⟨4, ⟨10, 0, 0, 1, 40000⟩, role_t.ROLE_ADMIN, true, []⟩
        ⟨5 / 2, 9, 0⟩ "CMD SPEED UP".toList =
      (⟨5 / 2, 9, 0⟩, "CMD-ERR action=SPEED_UP reason=battery_low\n".toList) := by
  have htick : mutate ⟨5 / 2, 10, 0⟩ Mutator.tick = ⟨5 / 2, 9, 0⟩ := by
    show broadcaster_update ⟨5 / 2, 10, 0⟩ = _
    rw [broadcaster_update_moving _ (by norm_num)]
    rfl
  refine ⟨htick, ?_, ?_⟩
  · have hparse : parse_action "CMD SPEED UP".toList = Except.ok "SPEED_UP".toList := rfl
    unfold process_cmd_interleaved
    rw [hparse]
    simp only [List.foldl_cons, List.foldl_nil, htick]
    have hchk : process_cmd_checked ⟨4, ⟨10, 0, 0, 1, 40000⟩, role_t.ROLE_ADMIN, true, []⟩
        (10 : Int) "SPEED_UP".toList ⟨5 / 2, 9, 0⟩ =
        apply_action "SPEED_UP".toList ⟨5 / 2, 9, 0⟩ := rfl
    rw [hchk]
    unfold apply_action
    rw [if_pos rfl, if_neg (by norm_num)]
    have h5 : (5 / 2 : ℚ) + 5 / 2 = 5 := by norm_num
    simp only [h5]
    rfl
  · have hparse : parse_action "CMD SPEED UP".toList = Except.ok "SPEED_UP".toList := rfl
    unfold process_cmd
    rw [hparse]
    rfl

/-! ## Password login -/

/-- A user field that does not begin with `token=` keeps the line out of the
token branch of line 404. -/
theorem take6_not_token (user pass : CStr) (hnt : ¬ "token=".toList <+: user) :
    (user ++ ' ' :: pass).take 6 ≠ "token=".toList := by
  intro h
  rcases user with _ | ⟨a, _ | ⟨b, _ | ⟨c, _ | ⟨d, _ | ⟨e, _ | ⟨f, rest⟩⟩⟩⟩⟩⟩
  · simp at h
  · simp at h
  · simp at h
  · simp at h
  · simp at h
  · simp at h
  · apply hnt
    simp only [List.cons_append, List.take_succ_cons, List.take_zero] at h
    exact ⟨rest, by rw [← h]; rfl⟩

theorem no_crlf_of_no_blank (s : CStr) (h : ∀ ch ∈ s, ch ≠ ' ' ∧ ch ≠ '\r' ∧ ch ≠ '\n') :
    ∀ ch ∈ s, ch ∉ "\r\n".toList := by
  intro ch hch hmem
  have := h ch hch
  simp only [String.toList, List.mem_cons, List.mem_singleton] at hmem
  rcases hmem with h1 | h1 | h1
  · exact this.2.1 h1
  · exact this.2.2 h1
  · cases h1

theorem no_blank_mem (s : CStr) (h : ∀ ch ∈ s, ch ≠ ' ' ∧ ch ≠ '\r' ∧ ch ≠ '\n') :
    ∀ ch ∈ s, ch ∉ " ".toList := by
  intro ch hch hmem
  have := h ch hch
  simp only [String.toList, List.mem_cons, List.mem_singleton] at hmem
  rcases hmem with h1 | h1
  · exact this.1 h1
  · cases h1

/-- How `handle_line` parses `AUTH user pass`: the four `strtok` results. -/
theorem strtok_auth_fields (user pass : CStr) (hu : user ≠ []) (hp : pass ≠ [])
    (hus : ∀ ch ∈ user, ch ≠ ' ' ∧ ch ≠ '\r' ∧ ch ≠ '\n')
    (hps : ∀ ch ∈ pass, ch ≠ ' ' ∧ ch ≠ '\r' ∧ ch ≠ '\n') :
    strtok ("AUTH ".toList ++ (user ++ ' ' :: pass)) " \t\r\n".toList =
      some ("AUTH".toList, user ++ ' ' :: pass) ∧
    strtok (user ++ ' ' :: pass) "\r\n".toList = some (user ++ ' ' :: pass, []) ∧
    strtok (user ++ ' ' :: pass) " ".toList = some (user, pass) ∧
    strtok pass " ".toList = some (pass, []) := by
  refine ⟨rfl, ?_, ?_, ?_⟩
  · apply strtok_whole _ _ (by simp)
    intro ch hch
    rcases List.mem_append.mp hch with h | h
    · exact no_crlf_of_no_blank user hus ch h
    · rcases List.mem_cons.mp h with h | h
      · rw [h]; decide
      · exact no_crlf_of_no_blank pass hps ch h
  · exact strtok_split user pass _ ' ' hu (no_blank_mem user hus) (by decide)
  · exact strtok_whole pass _ hp (no_blank_mem pass hps)

/-- C14 as stated fails: with no credential loaded, the line
`AUTH token=x y`, whose two fields are `token=x` and `y`, is taken as a token
login and answered `invalid_token`, not `no_credentials_on_server`.  The
digest function plays no part on this path. -/
theorem auth_token_prefix_counterexample :
    handle_line (fun salt pass => salt ++ pass)
        ⟨[new_client 4 ⟨10, 0, 0, 1, 40000⟩], false, ⟨[], [], []⟩, ⟨0, 100, 0⟩⟩
        (new_client 4 ⟨10, 0, 0, 1, 40000⟩)
        ("AUTH ".toList ++ "token=x".toList ++ ' ' :: "y".toList) [] =
      ⟨new_client 4 ⟨10, 0, 0, 1, 40000⟩, ⟨0, 100, 0⟩,
        "AUTH-ERR reason=invalid_token\n".toList, false⟩ ∧
    "AUTH-ERR reason=invalid_token\n".toList ≠
      "AUTH-ERR reason=no_credentials_on_server\n".toList :=
  ⟨rfl, by decide⟩

/-- C14 amended: for every line `AUTH user pass` whose two fields are not
empty, hold no blank or line break, and whose user field does not begin with
`token=`.  With no credential loaded the answer is
`AUTH-ERR reason=no_credentials_on_server`.  With a credential loaded the
login succeeds exactly when `user` is the stored user name and the digest of
salt and `pass` is the stored hash: then the session is authenticated, has
role ADMIN and a freshly generated token, and the answer is `AUTH-OK token=`
with that token.  Otherwise the answer is `invalid_user` when the user name
differs and `invalid_password` when only the digest differs.  On every
failure the session record is left as it was; the vehicle never changes. -/
theorem password_login (sha : CStr → CStr → CStr) (g : Globals) (c : client_t)
    (r : List Nat) (user pass : CStr) (hu : user ≠ []) (hp : pass ≠ [])
    (hus : ∀ ch ∈ user, ch ≠ ' ' ∧ ch ≠ '\r' ∧ ch ≠ '\n')
    (hps : ∀ ch ∈ pass, ch ≠ ' ' ∧ ch ≠ '\r' ∧ ch ≠ '\n')
    (hlen : user.length + pass.length ≤ 2041)
    (hnt : ¬ "token=".toList <+: user) :
    handle_line sha g c ("AUTH ".toList ++ user ++ ' ' :: pass) r =
      if g.cred_present = false then
        ⟨c, g.vehicle, "AUTH-ERR reason=no_credentials_on_server\n".toList, false⟩
      else if user ≠ g.admin_cred.username then
        ⟨c, g.vehicle, "AUTH-ERR reason=invalid_user\n".toList, false⟩
      else if sha g.admin_cred.salt pass = g.admin_cred.hashhex then
        ⟨{ c with authenticated := true, role := role_t.ROLE_ADMIN, token := gen_token r },
          g.vehicle, "AUTH-OK token=".toList ++ gen_token r ++ ['\n'], false⟩
      else
        ⟨c, g.vehicle, "AUTH-ERR reason=invalid_password\n".toList, false⟩ := by
  obtain ⟨h1, h2, h3, h4⟩ := strtok_auth_fields user pass hu hp hus hps
  have hassoc : "AUTH ".toList ++ user ++ ' ' :: pass = "AUTH ".toList ++ (user ++ ' ' :: pass) :=
    List.append_assoc _ _ _
  have hcopy : strncpy ("AUTH ".toList ++ (user ++ ' ' :: pass)) (MAXLINE - 1) =
      "AUTH ".toList ++ (user ++ ' ' :: pass) := by
    unfold strncpy MAXLINE
    apply List.take_of_length_le
    simp only [List.length_append, List.length_cons]
    have : "AUTH ".toList.length = 5 := by decide
    omega
  rw [hassoc]
  unfold handle_line
  simp only [hcopy, h1, h2, h3, h4, if_true]
  rw [if_neg (take6_not_token user pass hnt)]
  cases hcp : g.cred_present
  · simp only [Bool.not_false, if_true]
    rfl
  · simp only [Bool.not_true, Bool.false_eq_true, if_false]
    by_cases hun : user = g.admin_cred.username
    · rw [if_neg (not_not.mpr hun), if_neg (not_not.mpr hun)]
      by_cases hd : sha g.admin_cred.salt pass = g.admin_cred.hashhex
      · rw [if_pos hd, if_pos hd, send_auth_ok _ (le_of_eq (gen_token_length r))]
        rfl
      · rw [if_neg hd, if_neg hd]
        rfl
    · rw [if_pos hun, if_pos hun]
      rfl

/-- C14 amended, at a concrete input: the right password logs in. -/
theorem password_login_witness :
    handle_line (fun salt pass => salt ++ pass)
        ⟨[new_client 4 ⟨10, 0, 0, 1, 40000⟩], true,
          ⟨"admin".toList, "s".toList, "spw".toList⟩, ⟨0, 100, 0⟩⟩
        (new_client 4 ⟨10, 0, 0, 1, 40000⟩)
        ("AUTH ".toList ++ "admin".toList ++ ' ' :: "pw".toList) [] =
      ⟨⟨4, ⟨10, 0, 0, 1, 40000⟩, role_t.ROLE_ADMIN, true, gen_token []⟩, ⟨0, 100, 0⟩,
        "AUTH-OK token=".toList ++ gen_token [] ++ ['\n'], false⟩ :=
  (password_login (fun salt pass => salt ++ pass)
    ⟨[new_client 4 ⟨10, 0, 0, 1, 40000⟩], true,
      ⟨"admin".toList, "s".toList, "spw".toList⟩, ⟨0, 100, 0⟩⟩
    (new_client 4 ⟨10, 0, 0, 1, 40000⟩) [] "admin".toList "pw".toList
    (by decide) (by decide) (by decide) (by decide) (by decide) (by decide)).trans rfl

/-! ## Compass label -/

theorem dir_of_deg_in_range (h : Int) (h0 : 0 ≤ h) (h1 : h < 360) :
    dir_of_deg h =
      if h < 45 ∨ h ≥ 315 then "N".toList
      else if h < 135 then "E".toList
      else if h < 225 then "S".toList
      else "W".toList := by
  have ht : Int.tmod h 360 = h := by
    rw [Int.tmod_eq_emod h0 (by decide)]
    exact Int.emod_eq_of_lt h0 h1
  have hneg : ¬ h < 0 := by omega
  unfold dir_of_deg
  simp only [ht, if_neg hneg]

/-- C15: for every heading `h` with 0 ≤ h < 360, `dir_of_deg h` is N exactly
when h is in [315, 360) or [0, 45), E exactly when h is in [45, 135), S
exactly when h is in [135, 225), and W exactly when h is in [225, 315). -/
theorem dir_of_deg_sectors (h : Int) (h0 : 0 ≤ h) (h1 : h < 360) :
    (dir_of_deg h = "N".toList ↔ (315 ≤ h ∧ h < 360) ∨ (0 ≤ h ∧ h < 45)) ∧
    (dir_of_deg h = "E".toList ↔ 45 ≤ h ∧ h < 135) ∧
    (dir_of_deg h = "S".toList ↔ 135 ≤ h ∧ h < 225) ∧
    (dir_of_deg h = "W".toList ↔ 225 ≤ h ∧ h < 315) := by
  rw [dir_of_deg_in_range h h0 h1]
  have hNE : "N".toList ≠ "E".toList := by decide
  have hNS : "N".toList ≠ "S".toList := by decide
  have hNW : "N".toList ≠ "W".toList := by decide
  have hES : "E".toList ≠ "S".toList := by decide
  have hEW : "E".toList ≠ "W".toList := by decide
  have hSW : "S".toList ≠ "W".toList := by decide
  split_ifs with a b c
  · refine ⟨⟨fun _ => by omega, fun _ => rfl⟩, ⟨fun e => absurd e hNE, fun _ => by omega⟩,
      ⟨fun e => absurd e hNS, fun _ => by omega⟩, ⟨fun e => absurd e hNW, fun _ => by omega⟩⟩
  · refine ⟨⟨fun e => absurd e.symm hNE, fun _ => by omega⟩, ⟨fun _ => by omega, fun _ => rfl⟩,
      ⟨fun e => absurd e hES, fun _ => by omega⟩, ⟨fun e => absurd e hEW, fun _ => by omega⟩⟩
  · refine ⟨⟨fun e => absurd e.symm hNS, fun _ => by omega⟩,
      ⟨fun e => absurd e.symm hES, fun _ => by omega⟩, ⟨fun _ => by omega, fun _ => rfl⟩,
      ⟨fun e => absurd e hSW, fun _ => by omega⟩⟩
  · refine ⟨⟨fun e => absurd e.symm hNW, fun _ => by omega⟩,
      ⟨fun e => absurd e.symm hEW, fun _ => by omega⟩,
      ⟨fun e => absurd e.symm hSW, fun _ => by omega⟩, ⟨fun _ => by omega, fun _ => rfl⟩⟩

/-- C15 at a concrete input: heading 180 is S and nothing else. -/
theorem dir_of_deg_sectors_witness :
    (dir_of_deg 180 = "S".toList ↔ (135 : Int) ≤ 180 ∧ (180 : Int) < 225) ∧
    dir_of_deg 180 = "S".toList :=
  ⟨(dir_of_deg_sectors 180 (by decide) (by decide)).2.2.1, by decide⟩

/-! ## Line splitting -/

theorem spec_segments_no_nl (s : CStr) (h : '\n' ∉ s) : spec_segments s = ([], s) := by
  induction s with
  | nil => rfl
  | cons x xs ih =>
      have hx : x ≠ '\n' := fun e => h (by rw [e]; exact List.mem_cons_self _ _)
      have hxs : '\n' ∉ xs := fun e => h (List.mem_cons_of_mem _ e)
      simp only [spec_segments, ih hxs, if_neg hx]

theorem spec_segments_first (seg after : CStr) (h : '\n' ∉ seg) :
    spec_segments (seg ++ '\n' :: after) =
      (seg :: (spec_segments after).1, (spec_segments after).2) := by
  induction seg with
  | nil => simp [spec_segments]
  | cons x xs ih =>
      have hx : x ≠ '\n' := fun e => h (by rw [e]; exact List.mem_cons_self _ _)
      have hxs : '\n' ∉ xs := fun e => h (List.mem_cons_of_mem _ e)
      simp only [List.cons_append, spec_segments, if_neg hx, List.append_eq, ih hxs]

theorem split_at_first_nl (s : CStr) (h : '\n' ∈ s) :
    ∃ seg after, s = seg ++ '\n' :: after ∧ '\n' ∉ seg := by
  induction s with
  | nil => simp at h
  | cons x xs ih =>
      by_cases hx : x = '\n'
      · exact ⟨[], xs, by rw [hx]; rfl, by simp⟩
      · have hxs : '\n' ∈ xs := by
          rcases List.mem_cons.mp h with e | e
          · exact absurd e.symm hx
          · exact e
        obtain ⟨seg, after, hs, hn⟩ := ih hxs
        refine ⟨x :: seg, after, by rw [hs]; rfl, ?_⟩
        intro hmem
        rcases List.mem_cons.mp hmem with e | e
        · exact hx e.symm
        · exact hn e

theorem strchr_nl_first (seg after : CStr) (h : '\n' ∉ seg) :
    strchr_nl (seg ++ '\n' :: after) = some (seg, after) := by
  have hp : ∀ x ∈ seg, (fun ch : Char => ch != '\n') x = true := by
    intro x hx
    have : x ≠ '\n' := fun e => h (by rw [← e]; exact hx)
    simpa using this
  unfold strchr_nl
  rw [if_pos (by simp)]
  rw [List.takeWhile_append_of_pos hp, List.dropWhile_append_of_pos hp,
    List.takeWhile_cons_of_neg (by simp), List.dropWhile_cons_of_neg (by simp)]
  simp

theorem strchr_nl_none (s : CStr) (h : '\n' ∉ s) : strchr_nl s = none := by
  unfold strchr_nl
  rw [if_neg h]

/-- With more fuel than bytes, the loop of `client_thread` dispatches what
the specification describes. -/
theorem split_loop_eq (fuel : Nat) :
    ∀ start : CStr, start.length < fuel → split_loop fuel start = spec_dispatched start := by
  induction fuel with
  | zero => intro start h; omega
  | succ fuel ih =>
      intro start hlen
      by_cases hnl : '\n' ∈ start
      · obtain ⟨seg, after, hs, hn⟩ := split_at_first_nl start hnl
        subst hs
        have hlen2 : after.length < fuel := by
          simp only [List.length_append, List.length_cons] at hlen
          omega
        unfold split_loop spec_dispatched
        rw [strchr_nl_first seg after hn, spec_segments_first seg after hn]
        simp only [ih after hlen2, spec_dispatched, List.map_cons, List.filter_cons]
        by_cases ht : trim_cr seg = []
        · simp [ht]
        · simp [ht]
      · unfold split_loop spec_dispatched
        rw [strchr_nl_none start hnl, spec_segments_no_nl start hnl]
        simp

theorem spec_segments_concat (chunk : CStr) :
    chunk = (spec_segments chunk).1.flatMap (fun s => s ++ ['\n']) ++ (spec_segments chunk).2 := by
  induction chunk with
  | nil => rfl
  | cons x xs ih =>
      by_cases hx : x = '\n'
      · simp only [spec_segments, if_pos hx, List.flatMap_cons, List.nil_append,
          List.singleton_append, List.cons_append]
        rw [← ih, hx]
      · simp only [spec_segments, if_neg hx]
        cases hseg : (spec_segments xs).1 with
        | nil =>
            rw [hseg] at ih
            simp only [List.flatMap_nil, List.nil_append] at ih ⊢
            rw [← ih]
        | cons s ss =>
            rw [hseg] at ih
            simp only [List.flatMap_cons, List.cons_append, List.append_assoc] at ih ⊢
            rw [← List.cons_append, ← List.cons_append]
            simp only [List.cons_append, List.append_assoc]
            exact congrArg (List.cons x) ih

theorem spec_segments_nl_free (chunk : CStr) :
    (∀ s ∈ (spec_segments chunk).1, '\n' ∉ s) ∧ '\n' ∉ (spec_segments chunk).2 := by
  induction chunk with
  | nil => simp [spec_segments]
  | cons x xs ih =>
      obtain ⟨ih1, ih2⟩ := ih
      by_cases hx : x = '\n'
      · simp only [spec_segments, if_pos hx]
        refine ⟨?_, ih2⟩
        intro s hs
        rcases List.mem_cons.mp hs with e | e
        · rw [e]; simp
        · exact ih1 s e
      · simp only [spec_segments, if_neg hx]
        cases hseg : (spec_segments xs).1 with
        | nil =>
            refine ⟨by simp, ?_⟩
            intro hmem
            rcases List.mem_cons.mp hmem with e | e
            · exact hx e.symm
            · exact ih2 e
        | cons s ss =>
            rw [hseg] at ih1
            refine ⟨?_, ih2⟩
            intro t ht
            rcases List.mem_cons.mp ht with e | e
            · rw [e]
              intro hmem
              rcases List.mem_cons.mp hmem with e2 | e2
              · exact hx e2.symm
              · exact ih1 s (List.mem_cons_self _ _) e2
            · exact ih1 t (List.mem_cons_of_mem _ e)

theorem trim_cr_append (s : CStr) : trim_cr s ++ removed_cr s = s := by
  unfold trim_cr removed_cr
  by_cases h : s.getLast? = some '\r'
  · rw [if_pos h, if_pos h]
    have hne : s ≠ [] := by
      intro e
      rw [e] at h
      simp at h
    have hl : s.getLast hne = '\r' := by
      rw [List.getLast?_eq_getLast _ hne] at h
      exact Option.some.inj h
    rw [← hl]
    exact List.dropLast_append_getLast hne
  · rw [if_neg h, if_neg h]
    simp

/-- C16: line splitting of one received chunk without NUL bytes.  The lines
handed to `handle_line` are, in order, the segments that end in a line feed,
each with one trailing carriage return removed if it has one and skipped if
that leaves it empty, followed by the residual after the last line feed if
it is not empty.  Putting the removed carriage returns and line feeds back
after each trimmed segment, and the residual at the end, gives the chunk
again; no segment and no residual holds a line feed. -/
theorem line_splitting (chunk : CStr) (hnul : ∀ ch ∈ chunk, ch ≠ '\x00') :
    client_thread_lines chunk =
      ((spec_segments chunk).1.map trim_cr).filter (fun s => decide (s ≠ [])) ++
        (if (spec_segments chunk).2 ≠ [] then [(spec_segments chunk).2] else []) ∧
    chunk =
      (spec_segments chunk).1.flatMap (fun s => trim_cr s ++ removed_cr s ++ ['\n']) ++
        (spec_segments chunk).2 ∧
    (∀ s ∈ (spec_segments chunk).1, '\n' ∉ s) ∧
    '\n' ∉ (spec_segments chunk).2 := by
  have hbuf : chunk.takeWhile (fun ch => ch != '\x00') = chunk := by
    rw [List.takeWhile_eq_self_iff]
    intro x hx
    simpa using hnul x hx
  refine ⟨?_, ?_, spec_segments_nl_free chunk⟩
  · unfold client_thread_lines
    simp only [hbuf]
    rw [split_loop_eq _ chunk (Nat.lt_succ_self _)]
    rfl
  · have h := spec_segments_concat chunk
    simp only [trim_cr_append]
    exact h

/-- C16 at a concrete chunk: two terminated lines, an empty segment, and a
residual. -/
theorem line_splitting_witness :
    client_thread_lines "AUTH a b\r\nCMD SPEED UP\n\r\nQUIT".toList =
      ["AUTH a b".toList, "CMD SPEED UP".toList, "QUIT".toList] :=
  (line_splitting "AUTH a b\r\nCMD SPEED UP\n\r\nQUIT".toList (by decide)).1.trans (by decide)

/-! ## Broadcaster tick -/

/-- C17: one broadcaster tick on a vehicle whose battery is not negative.
If the speed is positive the battery becomes max(0, battery - 1); if the
speed is 0 the battery is unchanged; speed and heading are unchanged; and
the telemetry line written in that tick, to the authenticated sessions whose
send succeeds, carries the battery value after the decrement. -/
theorem broadcaster_tick_effect (g : Globals) (ts : CStr) (send_fails : client_t → Bool)
    (hb : 0 ≤ g.vehicle.battery) :
    (0 < g.vehicle.speed →
      (broadcaster_tick g ts send_fails).1.vehicle.battery = max 0 (g.vehicle.battery - 1)) ∧
    (g.vehicle.speed = 0 →
      (broadcaster_tick g ts send_fails).1.vehicle.battery = g.vehicle.battery) ∧
    (broadcaster_tick g ts send_fails).1.vehicle.speed = g.vehicle.speed ∧
    (broadcaster_tick g ts send_fails).1.vehicle.direction_deg = g.vehicle.direction_deg ∧
    (broadcaster_tick g ts send_fails).2 =
      (g.clients.filter (fun it => it.authenticated && !send_fails it)).map (fun it =>
        (it, snprintf MAXLINE ("TELEMETRY v=".toList ++ fmt_2f g.vehicle.speed ++
          " battery=".toList ++
          fmt_d (broadcaster_tick g ts send_fails).1.vehicle.battery ++
          " dir=".toList ++ dir_of_deg g.vehicle.direction_deg ++
          " timestamp=".toList ++ ts))) := by
  have hv : (broadcaster_tick g ts send_fails).1.vehicle = broadcaster_update g.vehicle := rfl
  have hs : (broadcaster_update g.vehicle).speed = g.vehicle.speed := rfl
  have hd : (broadcaster_update g.vehicle).direction_deg = g.vehicle.direction_deg := rfl
  refine ⟨?_, ?_, ?_, ?_, ?_⟩
  · intro h
    rw [hv, broadcaster_update_moving _ h]
  · intro h
    rw [hv, broadcaster_update_standing _ h hb]
  · rw [hv, hs]
  · rw [hv, hd]
  · rw [hv]
    unfold broadcaster_tick broadcast_telemetry telemetry_msg
    simp only [broadcast_loop_eq, List.nil_append, hs, hd]

/-- C17 at a concrete input: speed 12.5, battery 100, one authenticated
session whose send succeeds. -/
theorem broadcaster_tick_effect_witness :
    (broadcaster_tick
      ⟨[⟨4, ⟨10, 0, 0, 1, 40000⟩, role_t.ROLE_ADMIN, true, []⟩], false, ⟨[], [], []⟩,
        ⟨25 / 2, 100, 180⟩⟩
      "2024-01-01T00:00:00Z".toList (fun _ => false)).1.vehicle.battery = max 0 (100 - 1) :=
  (broadcaster_tick_effect
    ⟨[⟨4, ⟨10, 0, 0, 1, 40000⟩, role_t.ROLE_ADMIN, true, []⟩], false, ⟨[], [], []⟩,
      ⟨25 / 2, 100, 180⟩⟩
    "2024-01-01T00:00:00Z".toList (fun _ => false) (by decide)).1 (by norm_num)

/-! ## Unknown commands -/

/-- C18: keywords are matched exactly.  For every line whose first token
(delimited by blank, tab, carriage return or line feed) is none of AUTH,
SUBSCRIBE, LIST_USERS, CMD, QUIT, the answer is `ERR unknown_command`, the
session record (role, authenticated flag, token) and the vehicle are left as
they were, and the connection stays open. -/
theorem unrecognised_keyword (sha : CStr → CStr → CStr) (g : Globals) (c : client_t)
    (line : CStr) (r : List Nat) (cmd after : CStr)
    (htok : strtok (strncpy line (MAXLINE - 1)) " \t\r\n".toList = some (cmd, after))
    (hcmd : cmd ∉ ["AUTH".toList, "SUBSCRIBE".toList, "LIST_USERS".toList, "CMD".toList,
      "QUIT".toList]) :
    handle_line sha g c line r = ⟨c, g.vehicle, "ERR unknown_command\n".toList, false⟩ := by
  simp only [List.mem_cons, List.mem_singleton, List.not_mem_nil, or_false, not_or] at hcmd
  obtain ⟨h1, h2, h3, h4, h5⟩ := hcmd
  unfold handle_line
  simp only [htok]
  rw [if_neg h1, if_neg h2, if_neg h3, if_neg h4, if_neg h5]
  rfl

/-- C18 at concrete inputs: lowercase `auth` and `quit` are unknown
commands. -/
theorem unrecognised_keyword_witness :
    handle_line (fun salt pass => salt ++ pass) (init_globals false ⟨[], [], []⟩)
        (new_client 4 ⟨10, 0, 0, 1, 40000⟩) "auth admin pw".toList [] =
      ⟨new_client 4 ⟨10, 0, 0, 1, 40000⟩, (init_globals false ⟨[], [], []⟩).vehicle,
        "ERR unknown_command\n".toList, false⟩ ∧
    handle_line (fun salt pass => salt ++ pass) (init_globals false ⟨[], [], []⟩)
        (new_client 4 ⟨10, 0, 0, 1, 40000⟩) "quit".toList [] =
      ⟨new_client 4 ⟨10, 0, 0, 1, 40000⟩, (init_globals false ⟨[], [], []⟩).vehicle,
        "ERR unknown_command\n".toList, false⟩ :=
  ⟨unrecognised_keyword _ _ _ "auth admin pw".toList [] "auth".toList "admin pw".toList rfl
      (by decide),
    unrecognised_keyword _ _ _ "quit".toList [] "quit".toList [] rfl (by decide)⟩

/-! ## SUBSCRIBE -/

theorem strcasecmp_admin (a : CStr) :
    strcasecmp_eq a "ADMIN".toList = true ↔ a.map tolower = "admin".toList := by
  unfold strcasecmp_eq
  have h : "ADMIN".toList.map tolower = "admin".toList := by decide
  rw [h]
  simp

/-- A line whose first token is `SUBSCRIBE` changes neither the
authenticated flag nor the token nor the vehicle. -/
theorem subscribe_frame (sha : CStr → CStr → CStr) (g : Globals) (c : client_t)
    (line : CStr) (r : List Nat) (after : CStr)
    (h : strtok (strncpy line (MAXLINE - 1)) " \t\r\n".toList =
      some ("SUBSCRIBE".toList, after)) :
    (handle_line sha g c line r).c.authenticated = c.authenticated ∧
    (handle_line sha g c line r).c.token = c.token ∧
    (handle_line sha g c line r).c.fd = c.fd ∧
    (handle_line sha g c line r).vehicle = g.vehicle := by
  unfold handle_line
  simp only [h]
  rw [if_neg (by decide), if_pos trivial]
  split
  · exact ⟨rfl, rfl, rfl, rfl⟩
  · split
    · exact ⟨rfl, rfl, rfl, rfl⟩
    · exact ⟨rfl, rfl, rfl, rfl⟩

theorem subscribe_with_role (sha : CStr → CStr → CStr) (g : Globals) (c : client_t)
    (r : List Nat) (a : CStr) (hne : a ≠ [])
    (ha : ∀ ch ∈ a, ch ≠ ' ' ∧ ch ≠ '\r' ∧ ch ≠ '\n') (hlen : a.length ≤ 2037) :
    handle_line sha g c ("SUBSCRIBE ".toList ++ a) r =
      if a.map tolower = "admin".toList then
        ⟨{ c with role := role_t.ROLE_ADMIN }, g.vehicle,
          "SUBSCRIBE-OK role=ADMIN\n".toList, false⟩
      else
        ⟨{ c with role := role_t.ROLE_OBSERVER }, g.vehicle,
          "SUBSCRIBE-OK role=OBSERVER\n".toList, false⟩ := by
  have hcopy : strncpy ("SUBSCRIBE ".toList ++ a) (MAXLINE - 1) = "SUBSCRIBE ".toList ++ a := by
    unfold strncpy MAXLINE
    apply List.take_of_length_le
    simp only [List.length_append]
    have : "SUBSCRIBE ".toList.length = 10 := by decide
    omega
  have h1 : strtok ("SUBSCRIBE ".toList ++ a) " \t\r\n".toList =
      some ("SUBSCRIBE".toList, a) := rfl
  have h2 : strtok a " \r\n".toList = some (a, []) := by
    apply strtok_whole a _ hne
    intro ch hch hmem
    have := ha ch hch
    simp only [String.toList, List.mem_cons, List.mem_singleton] at hmem
    rcases hmem with h | h | h | h
    · exact this.1 h
    · exact this.2.1 h
    · exact this.2.2 h
    · cases h
  unfold handle_line
  simp only [hcopy, h1, h2]
  rw [if_neg (by decide), if_pos trivial]
  by_cases hadm : a.map tolower = "admin".toList
  · rw [if_pos ((strcasecmp_admin a).mpr hadm), if_pos hadm]
    rfl
  · rw [if_neg (fun h => hadm ((strcasecmp_admin a).mp h)), if_neg hadm]
    rfl

/-- C19 as stated fails: `SUBSCRIBE FOO` is not answered with an ERR line;
it sets the role to OBSERVER and is answered `SUBSCRIBE-OK role=OBSERVER`.
The digest function plays no part on this path. -/
theorem subscribe_unknown_role_counterexample :
    handle_line (fun salt pass => salt ++ pass) (init_globals false ⟨[], [], []⟩)
        (new_client 4 ⟨10, 0, 0, 1, 40000⟩) "SUBSCRIBE FOO".toList [] =
      ⟨⟨4, ⟨10, 0, 0, 1, 40000⟩, role_t.ROLE_OBSERVER, false, []⟩, ⟨0, 100, 0⟩,
        "SUBSCRIBE-OK role=OBSERVER\n".toList, false⟩ ∧
    (new_client 4 ⟨10, 0, 0, 1, 40000⟩).role ≠ role_t.ROLE_OBSERVER ∧
    "FOO".toList.map tolower ≠ "admin".toList ∧
    "FOO".toList.map tolower ≠ "observer".toList ∧
    ¬ "ERR".toList <+: "SUBSCRIBE-OK role=OBSERVER\n".toList :=
  ⟨rfl, by decide, by decide, by decide, by decide⟩

/-- C19 amended: `SUBSCRIBE` without an argument is answered
`ERR missing role` and leaves the session as it was.  With an argument `a`
(no blank or line break in it): when `a` is ADMIN in any letter casing the
role becomes ADMIN and the answer is `SUBSCRIBE-OK role=ADMIN`; for every
other argument, OBSERVER in any casing included, the role becomes OBSERVER
and the answer is `SUBSCRIBE-OK role=OBSERVER`.  Every line whose first
token is SUBSCRIBE leaves the authenticated flag, the token and the vehicle
as they were. -/
theorem subscribe_handling (sha : CStr → CStr → CStr) (g : Globals) (c : client_t)
    (r : List Nat) (a : CStr) (hne : a ≠ [])
    (ha : ∀ ch ∈ a, ch ≠ ' ' ∧ ch ≠ '\r' ∧ ch ≠ '\n') (hlen : a.length ≤ 2037) :
    handle_line sha g c "SUBSCRIBE".toList r = ⟨c, g.vehicle, "ERR missing role\n".toList, false⟩ ∧
    (a.map tolower = "admin".toList →
      handle_line sha g c ("SUBSCRIBE ".toList ++ a) r =
        ⟨{ c with role := role_t.ROLE_ADMIN }, g.vehicle,
          "SUBSCRIBE-OK role=ADMIN\n".toList, false⟩) ∧
    (a.map tolower ≠ "admin".toList →
      handle_line sha g c ("SUBSCRIBE ".toList ++ a) r =
        ⟨{ c with role := role_t.ROLE_OBSERVER }, g.vehicle,
          "SUBSCRIBE-OK role=OBSERVER\n".toList, false⟩) ∧
    (∀ (line after : CStr),
      strtok (strncpy line (MAXLINE - 1)) " \t\r\n".toList = some ("SUBSCRIBE".toList, after) →
      (handle_line sha g c line r).c.authenticated = c.authenticated ∧
      (handle_line sha g c line r).c.token = c.token ∧
      (handle_line sha g c line r).vehicle = g.vehicle) := by
  have hrole := subscribe_with_role sha g c r a hne ha hlen
  refine ⟨rfl, ?_, ?_, ?_⟩
  · intro h
    rw [hrole, if_pos h]
  · intro h
    rw [hrole, if_neg h]
  · intro line after h
    have hf := subscribe_frame sha g c line r after h
    exact ⟨hf.1, hf.2.1, hf.2.2.2⟩

/-- C19 amended, at concrete inputs: `SUBSCRIBE aDmIn` gives ADMIN,
`SUBSCRIBE Observer` gives OBSERVER. -/
theorem subscribe_handling_witness :
    handle_line (fun salt pass => salt ++ pass) (init_globals false ⟨[], [], []⟩)
        (new_client 4 ⟨10, 0, 0, 1, 40000⟩) ("SUBSCRIBE ".toList ++ "aDmIn".toList) [] =
      ⟨⟨4, ⟨10, 0, 0, 1, 40000⟩, role_t.ROLE_ADMIN, false, []⟩, ⟨0, 100, 0⟩,
        "SUBSCRIBE-OK role=ADMIN\n".toList, false⟩ ∧
    handle_line (fun salt pass => salt ++ pass) (init_globals false ⟨[], [], []⟩)
        (new_client 4 ⟨10, 0, 0, 1, 40000⟩) ("SUBSCRIBE ".toList ++ "Observer".toList) [] =
      ⟨⟨4, ⟨10, 0, 0, 1, 40000⟩, role_t.ROLE_OBSERVER, false, []⟩, ⟨0, 100, 0⟩,
        "SUBSCRIBE-OK role=OBSERVER\n".toList, false⟩ :=
  ⟨(subscribe_handling _ _ _ [] "aDmIn".toList (by decide) (by decide) (by decide)).2.1
      (by decide),
    (subscribe_handling _ _ _ [] "Observer".toList (by decide) (by decide) (by decide)).2.2.1
      (by decide)⟩

/-! ## Action names -/

/-- The name `process_cmd` works with is the first 63 bytes of the
normalised text. -/
theorem normalize_action_eq (text : CStr) :
    normalize_action text = (spec_normalize text).take 63 := by
  unfold normalize_action spec_normalize
  rw [List.map_take, List.map_take]

theorem take63_eq_iff (s name : CStr) (hn : name.length < 63) :
    s.take 63 = name ↔ s = name := by
  constructor
  · intro h
    by_cases hl : s.length ≤ 63
    · rwa [List.take_of_length_le hl] at h
    · exfalso
      have := congrArg List.length h
      rw [List.length_take] at this
      omega
  · intro h
    rw [h]
    exact List.take_of_length_le (by omega)

theorem take63_mem_iff (s : CStr) :
    s.take 63 ∈ ["SPEED_UP".toList, "SLOW_DOWN".toList, "TURN_LEFT".toList,
        "TURN_RIGHT".toList] ↔
      s ∈ ["SPEED_UP".toList, "SLOW_DOWN".toList, "TURN_LEFT".toList, "TURN_RIGHT".toList] := by
  simp only [List.mem_cons, List.mem_singleton, List.not_mem_nil, or_false]
  rw [take63_eq_iff s _ (by decide), take63_eq_iff s _ (by decide),
    take63_eq_iff s _ (by decide), take63_eq_iff s _ (by decide)]

/-- An authenticated administrator with battery at least 10 sending `CMD `
followed by a non-empty text without line breaks reaches `apply_action` with
the first 63 bytes of the normalised text. -/
theorem process_cmd_text (c : client_t) (v : vehicle_t) (text : CStr)
    (hauth : c.authenticated = true) (hrole : c.role = role_t.ROLE_ADMIN)
    (hb : 10 ≤ v.battery) (hne : text ≠ [])
    (hcr : ∀ ch ∈ text, ch ≠ '\r' ∧ ch ≠ '\n') (hlen : text.length ≤ 2043) :
    process_cmd c v ("CMD ".toList ++ text) =
      apply_action ((spec_normalize text).take 63) v := by
  cases text with
  | nil => exact absurd rfl hne
  | cons x xs =>
      have hx := hcr x (List.mem_cons_self _ _)
      have hp := parse_action_cmd x xs hx (by simp only [List.length_cons] at hlen; omega)
      rw [takeWhile_no_crlf _ hcr, normalize_action_eq] at hp
      exact process_cmd_admin c v _ _ hauth hrole hp hb

theorem apply_action_unknown (name : CStr) (v : vehicle_t) (hlen : name.length ≤ 63)
    (hn : name ∉ ["SPEED_UP".toList, "SLOW_DOWN".toList, "TURN_LEFT".toList,
      "TURN_RIGHT".toList]) :
    apply_action name v =
      (v, "CMD-ERR action=".toList ++ name ++ " reason=unknown_command\n".toList) := by
  simp only [List.mem_cons, List.mem_singleton, List.not_mem_nil, or_false, not_or] at hn
  obtain ⟨h1, h2, h3, h4⟩ := hn
  unfold apply_action
  rw [if_neg h1, if_neg h2, if_neg h3, if_neg h4, send_cmd_err name _ hlen (by decide)]
  simp

theorem apply_action_known_reply (name : CStr) (v : vehicle_t)
    (hn : name ∈ ["SPEED_UP".toList, "SLOW_DOWN".toList, "TURN_LEFT".toList,
      "TURN_RIGHT".toList]) :
    (apply_action name v).2 ∈
      ["CMD-ACK action=SPEED_UP status=OK\n".toList,
       "CMD-ERR action=SPEED_UP reason=speed_limit\n".toList,
       "CMD-ACK action=SLOW_DOWN status=OK\n".toList,
       "CMD-ACK action=TURN_LEFT status=OK\n".toList,
       "CMD-ACK action=TURN_RIGHT status=OK\n".toList] := by
  simp only [List.mem_cons, List.mem_singleton, List.not_mem_nil, or_false] at hn
  rcases hn with h | h | h | h
  · subst h
    unfold apply_action
    rw [if_pos rfl]
    split
    · exact List.mem_cons_of_mem _ (List.mem_cons_self _ _)
    · exact List.mem_cons_self _ _
  · subst h
    unfold apply_action
    rw [if_neg (by decide), if_pos rfl]
    exact List.mem_cons_of_mem _ (List.mem_cons_of_mem _ (List.mem_cons_self _ _))
  · subst h
    unfold apply_action
    rw [if_neg (by decide), if_neg (by decide), if_pos rfl]
    exact List.mem_cons_of_mem _ (List.mem_cons_of_mem _
      (List.mem_cons_of_mem _ (List.mem_cons_self _ _)))
  · subst h
    unfold apply_action
    rw [if_neg (by decide), if_neg (by decide), if_neg (by decide), if_pos rfl]
    exact List.mem_cons_of_mem _ (List.mem_cons_of_mem _
      (List.mem_cons_of_mem _ (List.mem_cons_of_mem _ (List.mem_cons_self _ _))))

/-- C20 as stated fails: for an action text of seventy letters `a` the
normalised name is seventy letters `A`, but the answer echoes only the first
sixty-three of them. -/
theorem long_action_counterexample :
    spec_normalize (List.replicate 70 'a') = List.replicate 70 'A' ∧
    (process_cmd ⟨4, ⟨10, 0, 0, 1, 40000⟩, role_t.ROLE_ADMIN, true, []⟩ ⟨0, 100, 0⟩
        ("CMD ".toList ++ List.replicate 70 'a')).2 =
      "CMD-ERR action=".toList ++ List.replicate 63 'A' ++
        " reason=unknown_command\n".toList ∧
    (process_cmd ⟨4, ⟨10, 0, 0, 1, 40000⟩, role_t.ROLE_ADMIN, true, []⟩ ⟨0, 100, 0⟩
        ("CMD ".toList ++ List.replicate 70 'a')).2 ≠
      "CMD-ERR action=".toList ++ spec_normalize (List.replicate 70 'a') ++
        " reason=unknown_command\n".toList := by
  have h1 : spec_normalize (List.replicate 70 'a') = List.replicate 70 'A' := by decide
  have h2 : (process_cmd ⟨4, ⟨10, 0, 0, 1, 40000⟩, role_t.ROLE_ADMIN, true, []⟩ ⟨0, 100, 0⟩
        ("CMD ".toList ++ List.replicate 70 'a')).2 =
      "CMD-ERR action=".toList ++ List.replicate 63 'A' ++
        " reason=unknown_command\n".toList := by rfl
  refine ⟨h1, h2, ?_⟩
  rw [h2, h1]
  decide

/-- C20 amended: for an authenticated administrator with battery at least
10 and a line `CMD ` followed by a non-empty text without line breaks, let
the name be the text with every blank replaced by an underscore and ASCII
letters upper-cased.  If the name is one of SPEED_UP, SLOW_DOWN, TURN_LEFT,
TURN_RIGHT, that action is carried out and answered with its own reply;
otherwise the answer is CMD-ERR reason=unknown_command echoing the first 63
bytes of the name, and the vehicle is left as it was. -/
theorem action_normalisation (c : client_t) (v : vehicle_t) (text : CStr)
    (hauth : c.authenticated = true) (hrole : c.role = role_t.ROLE_ADMIN)
    (hb : 10 ≤ v.battery) (hne : text ≠ [])
    (hcr : ∀ ch ∈ text, ch ≠ '\r' ∧ ch ≠ '\n') (hlen : text.length ≤ 2043) :
    (spec_normalize text ∈ ["SPEED_UP".toList, "SLOW_DOWN".toList, "TURN_LEFT".toList,
        "TURN_RIGHT".toList] →
      process_cmd c v ("CMD ".toList ++ text) = apply_action (spec_normalize text) v ∧
      (process_cmd c v ("CMD ".toList ++ text)).2 ∈
        ["CMD-ACK action=SPEED_UP status=OK\n".toList,
         "CMD-ERR action=SPEED_UP reason=speed_limit\n".toList,
         "CMD-ACK action=SLOW_DOWN status=OK\n".toList,
         "CMD-ACK action=TURN_LEFT status=OK\n".toList,
         "CMD-ACK action=TURN_RIGHT status=OK\n".toList]) ∧
    (spec_normalize text ∉ ["SPEED_UP".toList, "SLOW_DOWN".toList, "TURN_LEFT".toList,
        "TURN_RIGHT".toList] →
      process_cmd c v ("CMD ".toList ++ text) =
        (v, "CMD-ERR action=".toList ++ (spec_normalize text).take 63 ++
          " reason=unknown_command\n".toList)) := by
  have hp := process_cmd_text c v text hauth hrole hb hne hcr hlen
  constructor
  · intro hmem
    have hshort : (spec_normalize text).take 63 = spec_normalize text := by
      simp only [List.mem_cons, List.mem_singleton, List.not_mem_nil, or_false] at hmem
      apply List.take_of_length_le
      rcases hmem with h | h | h | h <;> rw [h] <;> decide
    rw [hp, hshort]
    exact ⟨rfl, apply_action_known_reply _ v hmem⟩
  · intro hnot
    rw [hp]
    apply apply_action_unknown _ v (by rw [List.length_take]; omega)
    rw [take63_mem_iff]
    exact hnot

/-- C20 amended, at concrete inputs: `CMD speed up` acts like
`CMD SPEED UP`, and a doubled blank gives an unknown name. -/
theorem action_normalisation_witness :
    process_cmd ⟨4, ⟨10, 0, 0, 1, 40000⟩, role_t.ROLE_ADMIN, true, []⟩ ⟨0, 100, 0⟩
        ("CMD ".toList ++ "speed up".toList) =
      apply_action "SPEED_UP".toList ⟨0, 100, 0⟩ ∧
    process_cmd ⟨4, ⟨10, 0, 0, 1, 40000⟩, role_t.ROLE_ADMIN, true, []⟩ ⟨0, 100, 0⟩
        ("CMD ".toList ++ " SPEED UP".toList) =
      (⟨0, 100, 0⟩, "CMD-ERR action=".toList ++ "_SPEED_UP".toList ++
        " reason=unknown_command\n".toList) :=
  ⟨((action_normalisation ⟨4, ⟨10, 0, 0, 1, 40000⟩, role_t.ROLE_ADMIN, true, []⟩ ⟨0, 100, 0⟩
      "speed up".toList rfl rfl (by decide) (by decide) (by decide) (by decide)).1
      (by decide)).1,
    (action_normalisation ⟨4, ⟨10, 0, 0, 1, 40000⟩, role_t.ROLE_ADMIN, true, []⟩ ⟨0, 100, 0⟩
      " SPEED UP".toList rfl rfl (by decide) (by decide) (by decide) (by decide)).2
      (by decide)⟩

end Server
